import Mathlib

/-!
Verification development for the raster core of `SpaPy/SpaRasters.py`
(GeoHack23-WildfirePerimeter).

The raster data model (`SpaDatasetRaster`), its georeferencing arithmetic,
`Clone`, `Reclassify`, `Math`, and the resampling operations
(`SpaResample.Scale`, `SpaResample.ExtractByPixels`, module-level
`ResampleToMatch`) are embedded shallowly:

* pixel values and reference coordinates are rationals (the Python code uses
  floats; every property checked here is about control flow, bookkeeping
  formulas, shapes and masks, none about rounding of float arithmetic);
* a numpy array is modelled as an `NArr`/`BArr`: a buffer identity (`id`)
  together with its contents.  An operation that allocates fresh arrays
  (e.g. `numpy.array`, `numpy.add`, `scipy.ndimage.zoom`) stamps them with
  identities drawn from a supply `next`; an operation that returns a view
  (numpy basic slicing in `ExtractByPixels`) keeps the source buffer's
  identity; an operation that writes in place (the thresholding in
  `SpaResample.Scale`) keeps the identity and changes the contents.  Two
  arrays share mutable storage exactly when their identities coincide.
  Operations that mutate an argument in place additionally return the
  argument's post-state;
* Python exceptions are `Except String`;
* `GDALDataset`/file-path inputs and the lazy `GetBands` loading are outside
  the model: every modelled raster has its band arrays materialised, which is
  the state all the operations below work on.
-/

/-- A 2-dimensional array: a list of rows. -/
abbrev Grid (α : Type) := List (List α)

/-- A numpy numeric array: buffer identity plus contents. -/
structure NArr where
  id : Nat
  data : Grid ℚ
deriving DecidableEq

/-- A numpy boolean array (the nodata mask): buffer identity plus contents. -/
structure BArr where
  id : Nat
  data : Grid Bool
deriving DecidableEq

/-- The GDAL element types supported by the module (file header of
`SpaRasters.py`). -/
inductive GDALType
  | GDT_Byte
  | GDT_UInt16
  | GDT_Int16
  | GDT_UInt32
  | GDT_Int32
  | GDT_Float32
  | GDT_Float64
deriving DecidableEq

/-- `SpaDatasetRaster` (SpaRasters.py lines 116-147): a multi-band raster
with affine georeferencing (`XMin`, `YMax` = reference coordinates of the
top-left corner, `PixelWidth` positive, `PixelHeight` negative for north-up
rasters), an optional nodata sentinel and an optional mask (`True` = pixel
masked/invalid). -/
structure SpaDatasetRaster where
  WidthInPixels : Nat
  HeightInPixels : Nat
  NumBands : Nat
  NoDataValue : Option ℚ
  TheMask : Option BArr
  TheBands : List NArr
  GDALDataType : GDALType
  XMin : ℚ
  YMax : ℚ
  PixelWidth : ℚ
  PixelHeight : ℚ
deriving DecidableEq

/-- `GetResolution` (lines 327-337): `(PixelWidth, PixelHeight)`. -/
def SpaDatasetRaster.GetResolution (r : SpaDatasetRaster) : ℚ × ℚ :=
  (r.PixelWidth, r.PixelHeight)

/-- `GetBounds` (lines 353-371): `(XMin, YMin, XMax, YMax)` with
`XMax = XMin + Width*PixelWidth` and `YMin = YMax + Height*PixelHeight`
(the pixel height is negative, so the product is added). -/
def SpaDatasetRaster.GetBounds (r : SpaDatasetRaster) : ℚ × ℚ × ℚ × ℚ :=
  (r.XMin,
   r.YMax + (r.HeightInPixels : ℚ) * r.GetResolution.2,
   r.XMin + (r.WidthInPixels : ℚ) * r.GetResolution.1,
   r.YMax)

/-- `GetRefXFromPixelX` (lines 373-385): `XMin + PixelX*PixelWidth`. -/
def SpaDatasetRaster.GetRefXFromPixelX (r : SpaDatasetRaster) (PixelX : ℚ) : ℚ :=
  r.XMin + PixelX * r.GetResolution.1

/-- `GetRefYFromPixelY` (lines 387-399): the source computes
`YMax - PixelY*PixelHeight` (note the minus sign). -/
def SpaDatasetRaster.GetRefYFromPixelY (r : SpaDatasetRaster) (PixelY : ℚ) : ℚ :=
  r.YMax - PixelY * r.GetResolution.2

/-- `GetPixelXFromRefX` (lines 401-412): `(RefX-XMin) // PixelWidth`; Python's
`//` on floats is the floor, and the final `int(...)` of an integral float is
the identity. -/
def SpaDatasetRaster.GetPixelXFromRefX (r : SpaDatasetRaster) (RefX : ℚ) : ℤ :=
  ⌊(RefX - r.XMin) / r.GetResolution.1⌋

/-- `GetPixelYFromRefY` (lines 414-425): `0 - ((YMax-RefY) // PixelHeight)`. -/
def SpaDatasetRaster.GetPixelYFromRefY (r : SpaDatasetRaster) (RefY : ℚ) : ℤ :=
  0 - ⌊(r.YMax - RefY) / r.GetResolution.2⌋

/-- A north-up georeference used to exercise the pixel/reference maps:
top-left corner at `(0, 100)`, 10-unit pixels (`PixelHeight = -10`),
4×4 pixels, so the raster spans x ∈ [0,40], y ∈ [60,100]. -/
def georefR : SpaDatasetRaster :=
  { WidthInPixels := 4
    HeightInPixels := 4
    NumBands := 1
    NoDataValue := none
    TheMask := none
    TheBands := [⟨0, [[1,1,1,1],[1,1,1,1],[1,1,1,1],[1,1,1,1]]⟩]
    GDALDataType := .GDT_Float32
    XMin := 0
    YMax := 100
    PixelWidth := 10
    PixelHeight := -10 }

/-- C6, failing-input evaluation.  The claim states the pixel-to-reference
map returns `originY + pixelY*pixelHeight` and the reference-to-pixel map is
the floor of the inverse affine map, so that integer pixel indices round-trip.
On the georeference above (originY = 100, pixelHeight = -10) the code's
`GetRefYFromPixelY 2` yields `120` instead of the claimed
`100 + 2*(-10) = 80` (the point lies outside the raster, above its top edge);
the composite `GetPixelYFromRefY (GetRefYFromPixelY 2)` yields `-2`, not `2`;
and `GetPixelYFromRefY 95` yields `1` where the floor of the inverse affine
map is `0` (the code computes a ceiling in the y direction).  The x-direction
maps agree with the claim. -/
theorem getRefYFromPixelY_sign_flip_bug :
    georefR.GetRefYFromPixelY 2 = 120 ∧
    georefR.YMax + 2 * georefR.PixelHeight = 80 ∧
    georefR.GetPixelYFromRefY (georefR.GetRefYFromPixelY 2) = -2 ∧
    georefR.GetPixelYFromRefY 95 = 1 ∧
    ⌊((95 : ℚ) - georefR.YMax) / georefR.PixelHeight⌋ = 0 ∧
    georefR.GetRefXFromPixelX 2 = georefR.XMin + 2 * georefR.PixelWidth ∧
    georefR.GetPixelXFromRefX (georefR.GetRefXFromPixelX 2) = 2 := by
  refine ⟨?_, ?_, ?_, ?_, ?_, ?_, ?_⟩ <;>
    norm_num [georefR, SpaDatasetRaster.GetRefYFromPixelY,
      SpaDatasetRaster.GetPixelYFromRefY, SpaDatasetRaster.GetRefXFromPixelX,
      SpaDatasetRaster.GetPixelXFromRefX, SpaDatasetRaster.GetResolution]

/-- `Clone` (lines 185-209): copies the metadata, rebuilds every band with
`numpy.array(SourceArray)` (a fresh buffer per band), and copies the mask
only when **both** `NoDataValue` and `TheMask` are set (lines 204-207);
otherwise the clone's mask is `None`.  Fresh buffers take identities
`next, next+1, ...` for the bands and `next + (number of bands)` for the
mask. -/
def SpaDatasetRaster.Clone (r : SpaDatasetRaster) (next : Nat) : SpaDatasetRaster :=
  { r with
    TheBands := r.TheBands.enum.map (fun p => (⟨next + p.1, p.2.data⟩ : NArr))
    TheMask :=
      match r.NoDataValue, r.TheMask with
      | some _, some m => some ⟨next + r.TheBands.length, m.data⟩
      | _, _ => none }

/-- A raster whose mask is populated while `NoDataValue` is `None` (the state
produced by e.g. `SetMask` on a raster without a nodata sentinel). -/
def maskNoNodataR : SpaDatasetRaster :=
  { WidthInPixels := 1
    HeightInPixels := 1
    NumBands := 1
    NoDataValue := none
    TheMask := some ⟨5, [[true]]⟩
    TheBands := [⟨0, [[1]]⟩]
    GDALDataType := .GDT_Float32
    XMin := 0
    YMax := 0
    PixelWidth := 1
    PixelHeight := -1 }

/-- C9, counterexample.  The claim says that for **every** raster with a
populated mask, `Clone` returns an element-wise equal (fresh) mask.  For a
raster whose mask is populated but whose `NoDataValue` is `None`, the guard
at lines 204-207 drops the mask: the clone has no mask at all. -/
theorem clone_drops_mask_without_nodata :
    maskNoNodataR.TheMask ≠ none ∧
    (maskNoNodataR.Clone 10).TheMask = none := by
  constructor
  · simp [maskNoNodataR]
  · simp [maskNoNodataR, SpaDatasetRaster.Clone]

theorem enumFrom_map_comp {α β : Type _} (g : α → β) :
    ∀ (n : Nat) (l : List α), (l.enumFrom n).map (fun p => g p.2) = l.map g
  | _, [] => rfl
  | n, a :: l => by
    simp only [List.enumFrom, List.map_cons]
    rw [enumFrom_map_comp g (n + 1) l]

theorem enum_map_comp {α β : Type _} (g : α → β) (l : List α) :
    l.enum.map (fun p => g p.2) = l.map g :=
  enumFrom_map_comp g 0 l

theorem fst_lt_of_mem_enum {α : Type _} {p : Nat × α} {l : List α}
    (h : p ∈ l.enum) : p.1 < l.length := by
  have := List.mem_enum_iff_getElem?.mp h
  exact (List.getElem?_eq_some.mp this).1

/-- C9, amended.  For every raster whose mask is populated **and whose
`NoDataValue` is set**, `Clone` yields a mask that is element-wise equal to
the original but lives in a fresh buffer (no aliasing), and every band of the
clone is an element-wise equal fresh copy of the corresponding band
(identities of the clone's arrays are disjoint from all of the original's,
provided the supply `next` exceeds every existing identity). -/
theorem clone_deep_copy_with_nodata
    (r : SpaDatasetRaster) (next : Nat) (m : BArr)
    (hnd : r.NoDataValue ≠ none) (hm : r.TheMask = some m)
    (hfresh : ∀ a ∈ r.TheBands, a.id < next) (hmfresh : m.id < next) :
    (∃ m', (r.Clone next).TheMask = some m' ∧ m'.data = m.data ∧
      m'.id ≠ m.id ∧ ∀ a ∈ r.TheBands, m'.id ≠ a.id) ∧
    (r.Clone next).TheBands.map NArr.data = r.TheBands.map NArr.data ∧
    (∀ a' ∈ (r.Clone next).TheBands, ∀ a ∈ r.TheBands, a'.id ≠ a.id) ∧
    (∀ a' ∈ (r.Clone next).TheBands, ∀ m'' ∈ (r.Clone next).TheMask,
      a'.id ≠ m''.id) := by
  obtain ⟨nd, hnd'⟩ := Option.ne_none_iff_exists'.mp hnd
  refine ⟨⟨⟨next + r.TheBands.length, m.data⟩, ?_, rfl, ?_, ?_⟩, ?_, ?_, ?_⟩
  · simp [SpaDatasetRaster.Clone, hnd', hm]
  · show next + r.TheBands.length ≠ m.id
    omega
  · intro a ha
    have := hfresh a ha
    show next + r.TheBands.length ≠ a.id
    omega
  · simp only [SpaDatasetRaster.Clone, List.map_map]
    exact enum_map_comp (fun a => a.data) r.TheBands
  · intro a' ha' a ha
    simp only [SpaDatasetRaster.Clone, List.mem_map] at ha'
    obtain ⟨p, _, rfl⟩ := ha'
    have := hfresh a ha
    show next + p.1 ≠ a.id
    omega
  · intro a' ha' m'' hm''
    simp only [SpaDatasetRaster.Clone, List.mem_map] at ha'
    obtain ⟨p, hp, rfl⟩ := ha'
    have hlt : p.1 < r.TheBands.length := fst_lt_of_mem_enum hp
    simp only [SpaDatasetRaster.Clone, hnd', hm, Option.mem_def,
      Option.some.injEq] at hm''
    subst hm''
    show next + p.1 ≠ next + r.TheBands.length
    omega

/-- C9, witness for the amended theorem at a concrete raster (mask and
nodata both set). -/
def maskWithNodataR : SpaDatasetRaster :=
  { maskNoNodataR with NoDataValue := some 9 }

theorem clone_deep_copy_with_nodata_witness :
    (∃ m', (maskWithNodataR.Clone 10).TheMask = some m' ∧
      m'.data = [[true]] ∧ m'.id ≠ 5 ∧
      ∀ a ∈ maskWithNodataR.TheBands, m'.id ≠ a.id) ∧
    (maskWithNodataR.Clone 10).TheBands.map NArr.data =
      maskWithNodataR.TheBands.map NArr.data ∧
    (∀ a' ∈ (maskWithNodataR.Clone 10).TheBands,
      ∀ a ∈ maskWithNodataR.TheBands, a'.id ≠ a.id) ∧
    (∀ a' ∈ (maskWithNodataR.Clone 10).TheBands,
      ∀ m'' ∈ (maskWithNodataR.Clone 10).TheMask, a'.id ≠ m''.id) :=
  clone_deep_copy_with_nodata maskWithNodataR 10 ⟨5, [[true]]⟩
    (by simp [maskWithNodataR, maskNoNodataR])
    (by simp [maskWithNodataR, maskNoNodataR])
    (by intro a ha
        simp only [maskWithNodataR, maskNoNodataR, List.mem_singleton] at ha
        subst ha
        decide)
    (by simp)

/-- `numpy.where(cond, v, g)`: elementwise selection (line 1270). -/
def numpy_where (cond : Grid Bool) (v : ℚ) (g : Grid ℚ) : Grid ℚ :=
  List.zipWith (List.zipWith (fun c x => if c then v else x)) cond g

/-- The boolean array of a `range`-mode class (lines 1241/1268):
`TheBand > lo` and `TheBand <= hi`, elementwise. -/
def rangeCond (lo hi : ℚ) (g : Grid ℚ) : Grid Bool :=
  g.map (List.map (fun x => decide (lo < x ∧ x ≤ hi)))

/-- The band-rewrite loop of `Reclassify` (lines 1252-1274) in `range` mode:
each class with a numeric output rewrites the band via `numpy.where`;
classes whose output is `None` are skipped here (they only extend the mask).
The boolean test of every class is evaluated against the **current**
(possibly already rewritten) band, because `TheBand` is reassigned inside the
loop. -/
def reclassifyBandRange (classes : List (ℚ × ℚ)) (outs : List (Option ℚ))
    (band : Grid ℚ) : Grid ℚ :=
  (List.zip classes outs).foldl
    (fun TheBand co =>
      match co.2 with
      | some ov => numpy_where (rangeCond co.1.1 co.1.2 TheBand) ov TheBand
      | none => TheBand) band

/-- The mask-accumulation loop of `Reclassify` (lines 1228-1249): classes
whose output is `None` OR their boolean array (computed from the **original**
first band) into the mask. -/
def reclassifyMaskRange (classes : List (ℚ × ℚ)) (outs : List (Option ℚ))
    (band0 : Grid ℚ) (mask0 : Option (Grid Bool)) : Option (Grid Bool) :=
  (List.zip classes outs).foldl
    (fun TheMask co =>
      match co.2 with
      | none =>
        match TheMask with
        | some mm =>
          some (List.zipWith (List.zipWith or) (rangeCond co.1.1 co.1.2 band0) mm)
        | none => some (rangeCond co.1.1 co.1.2 band0)
      | some _ => TheMask) mask0

/-- `Reclassify` (lines 1183-1279) specialised to `mode="range"` (the mode the
overlap claims are about; `discrete` mode differs only in the boolean test).
The result starts as `self.Clone()`, receives the rewritten bands via
`SetBands` and the accumulated mask via `SetMask` (a reference swap; the
mask's buffer identity is irrelevant to the claims below and stamped fresh). -/
def SpaDatasetRaster.Reclassify_range (r : SpaDatasetRaster)
    (InputClasses : List (ℚ × ℚ)) (OutputClasses : List (Option ℚ))
    (next : Nat) : SpaDatasetRaster :=
  let NewDataset := r.Clone next
  let TheBand0 := (r.TheBands.headD ⟨0, []⟩).data
  let TheMask :=
    reclassifyMaskRange InputClasses OutputClasses TheBand0 (r.TheMask.map BArr.data)
  { NewDataset with
    TheBands := r.TheBands.enum.map
      (fun p => (⟨next + r.TheBands.length + 1 + p.1,
        reclassifyBandRange InputClasses OutputClasses p.2.data⟩ : NArr))
    TheMask := TheMask.map (fun mg => ⟨next + 2 * r.TheBands.length + 1, mg⟩) }

/-- Per-pixel form of the band-rewrite loop: fold the classes over a single
pixel value, each test against the current value. -/
def reclassifyPixel (classes : List (ℚ × ℚ)) (outs : List (Option ℚ))
    (v : ℚ) : ℚ :=
  (List.zip classes outs).foldl
    (fun x co =>
      match co.2 with
      | some ov => if co.1.1 < x ∧ x ≤ co.1.2 then ov else x
      | none => x) v

/-- The overwrite semantics the claim (and spec §4.3/§8) describe, written
from the spec's words for comparison with `Reclassify_range`: every class
whose range matches the pixel's **original** value overwrites in input order,
so a pixel matching several classes ends with the **last** matching class's
output. -/
def reclassifyLastMatch (classes : List (ℚ × ℚ)) (outs : List (Option ℚ))
    (v : ℚ) : ℚ :=
  (List.zip classes outs).foldl
    (fun acc co => if co.1.1 < v ∧ v ≤ co.1.2 then co.2.getD acc else acc) v

/-- First-match semantics on the original value (skipping `None` classes),
used to state the amended claim. -/
def reclassifyFirstMatch : List (ℚ × ℚ) → List (Option ℚ) → ℚ → ℚ
  | [], _, v => v
  | _ :: _, [], v => v
  | c :: cs, some ov :: os, v =>
    if c.1 < v ∧ v ≤ c.2 then ov else reclassifyFirstMatch cs os v
  | _ :: cs, none :: os, v => reclassifyFirstMatch cs os v

theorem zipWith_cond_map (v : ℚ) (f : ℚ → Bool) :
    ∀ row : List ℚ,
      List.zipWith (fun c x => if c then v else x) (row.map f) row
        = row.map (fun x => if f x then v else x)
  | [] => rfl
  | x :: row => by
    simp only [List.map_cons, List.zipWith_cons_cons]
    rw [zipWith_cond_map v f row]

theorem numpy_where_rangeCond (lo hi v : ℚ) :
    ∀ g : Grid ℚ,
      numpy_where (rangeCond lo hi g) v g
        = g.map (List.map (fun x => if lo < x ∧ x ≤ hi then v else x))
  | [] => rfl
  | row :: g => by
    simp only [numpy_where, rangeCond, List.map_cons, List.zipWith_cons_cons]
    rw [zipWith_cond_map v _ row]
    have ih := numpy_where_rangeCond lo hi v g
    simp only [numpy_where, rangeCond] at ih
    rw [ih]
    simp

theorem reclassifyBandRange_pixel (classes : List (ℚ × ℚ))
    (outs : List (Option ℚ)) (g : Grid ℚ) :
    reclassifyBandRange classes outs g
      = g.map (List.map (reclassifyPixel classes outs)) := by
  unfold reclassifyBandRange reclassifyPixel
  generalize List.zip classes outs = l
  induction l generalizing g with
  | nil => simp
  | cons co l ih =>
    obtain ⟨⟨lo, hi⟩, o⟩ := co
    cases o with
    | none =>
      simp only [List.foldl_cons]
      rw [ih g]
    | some ov =>
      simp only [List.foldl_cons]
      rw [numpy_where_rangeCond, ih, List.map_map]
      congr 1
      funext row
      simp only [Function.comp, List.map_map]
      rfl

theorem reclassifyPixel_no_match (classes : List (ℚ × ℚ))
    (outs : List (Option ℚ)) (x : ℚ)
    (h : ∀ c ∈ classes, ¬(c.1 < x ∧ x ≤ c.2)) :
    reclassifyPixel classes outs x = x := by
  unfold reclassifyPixel
  induction classes generalizing outs with
  | nil => simp
  | cons c cs ih =>
    cases outs with
    | nil => simp [List.zip]
    | cons o os =>
      simp only [List.zip_cons_cons, List.foldl_cons]
      have hc := h c (by simp)
      have hcs : ∀ c' ∈ cs, ¬(c'.1 < x ∧ x ≤ c'.2) := fun c' hc' => h c' (by simp [hc'])
      cases o with
      | none => exact ih os hcs
      | some ov =>
        simp only [if_neg hc]
        exact ih os hcs

theorem reclassifyPixel_eq_firstMatch (classes : List (ℚ × ℚ))
    (outs : List (Option ℚ)) (v : ℚ)
    (H : ∀ ov ∈ outs.filterMap id, ∀ c ∈ classes, ¬(c.1 < ov ∧ ov ≤ c.2)) :
    reclassifyPixel classes outs v = reclassifyFirstMatch classes outs v := by
  induction classes generalizing outs v with
  | nil => simp [reclassifyPixel, reclassifyFirstMatch]
  | cons c cs ih =>
    cases outs with
    | nil => simp [reclassifyPixel, reclassifyFirstMatch, List.zip]
    | cons o os =>
      cases o with
      | none =>
        have Hos : ∀ ov ∈ os.filterMap id, ∀ c' ∈ cs, ¬(c'.1 < ov ∧ ov ≤ c'.2) := by
          intro ov hov c' hc'
          refine H ov ?_ c' (by simp [hc'])
          simpa using hov
        show reclassifyPixel (c :: cs) (none :: os) v = reclassifyFirstMatch cs os v
        unfold reclassifyPixel
        simp only [List.zip_cons_cons, List.foldl_cons]
        exact ih os v Hos
      | some ovh =>
        have Hos : ∀ ov ∈ os.filterMap id, ∀ c' ∈ cs, ¬(c'.1 < ov ∧ ov ≤ c'.2) := by
          intro ov hov c' hc'
          refine H ov ?_ c' (by simp [hc'])
          have : ov ∈ ovh :: os.filterMap id := List.mem_cons_of_mem _ hov
          simpa using this
        by_cases hm : c.1 < v ∧ v ≤ c.2
        · show reclassifyPixel (c :: cs) (some ovh :: os) v = _
          unfold reclassifyPixel reclassifyFirstMatch
          simp only [List.zip_cons_cons, List.foldl_cons, if_pos hm]
          have hfix : ∀ c' ∈ cs, ¬(c'.1 < ovh ∧ ovh ≤ c'.2) := by
            intro c' hc'
            exact H ovh (by simp) c' (by simp [hc'])
          exact reclassifyPixel_no_match cs os ovh hfix
        · show reclassifyPixel (c :: cs) (some ovh :: os) v = _
          unfold reclassifyPixel reclassifyFirstMatch
          simp only [List.zip_cons_cons, List.foldl_cons, if_neg hm]
          exact ih os v Hos

theorem Reclassify_range_bands_eq (r : SpaDatasetRaster)
    (classes : List (ℚ × ℚ)) (outs : List (Option ℚ)) (next : Nat) :
    (r.Reclassify_range classes outs next).TheBands.map NArr.data
      = r.TheBands.map (fun a => a.data.map (List.map (reclassifyPixel classes outs))) := by
  show (r.TheBands.enum.map
      (fun p => (⟨next + r.TheBands.length + 1 + p.1,
        reclassifyBandRange classes outs p.2.data⟩ : NArr))).map NArr.data = _
  rw [List.map_map]
  show r.TheBands.enum.map
      (fun p => reclassifyBandRange classes outs p.2.data) = _
  rw [enum_map_comp (fun a : NArr => reclassifyBandRange classes outs a.data) r.TheBands]
  congr 1
  funext a
  rw [reclassifyBandRange_pixel]

/-- A 1×1 raster whose single pixel is 100, fed to `Reclassify` with two
overlapping ranges. -/
def overlapR : SpaDatasetRaster :=
  { WidthInPixels := 1
    HeightInPixels := 1
    NumBands := 1
    NoDataValue := none
    TheMask := none
    TheBands := [⟨0, [[100]]⟩]
    GDALDataType := .GDT_Int16
    XMin := 0
    YMax := 0
    PixelWidth := 1
    PixelHeight := -1 }

/-- C3, counterexample.  Classes `(0,150] → 1` and `(50,200] → 2` overlap and
the pixel value 100 matches both.  The claim says the pixel ends with the
output of the **last** matching class (2, as `reclassifyLastMatch` computes).
The code instead rewrites the pixel to 1 at the first class and then tests
the **rewritten** value 1 against `(50,200]`, which fails — so the pixel ends
with the **first** matching class's output 1. -/
theorem reclassify_overlap_first_match_counterexample :
    (overlapR.Reclassify_range [(0,150), (50,200)] [some 1, some 2] 0).TheBands.map
        NArr.data = [[[1]]] ∧
    reclassifyLastMatch [(0,150), (50,200)] [some 1, some 2] 100 = 2 ∧
    ((0:ℚ) < 100 ∧ (100:ℚ) ≤ 150) ∧ ((50:ℚ) < 100 ∧ (100:ℚ) ≤ 200) ∧
    (1:ℚ) ≠ 2 := by
  refine ⟨?_, ?_, by norm_num, by norm_num, by norm_num⟩
  · rw [Reclassify_range_bands_eq]
    simp only [overlapR, List.map_cons, List.map_nil]
    norm_num [reclassifyPixel, List.zip_cons_cons, List.foldl_cons,
      List.foldl_nil]
  · norm_num [reclassifyLastMatch, List.zip_cons_cons, List.foldl_cons,
      List.foldl_nil]

/-- C3, amended.  `Reclassify` applies the classes sequentially in input
order, but each class's range test is evaluated against the pixel's
**current** (possibly already rewritten) value: every band of the result is
the input band mapped pixelwise by the fold `reclassifyPixel`.  Consequently,
whenever no numeric output value itself falls inside any class's range, a
pixel matching several overlapping classes ends with the **first** (not the
last) matching class's output. -/
theorem reclassify_sequential_overwrite_semantics :
    (∀ (r : SpaDatasetRaster) (classes : List (ℚ × ℚ))
      (outs : List (Option ℚ)) (next : Nat),
      (r.Reclassify_range classes outs next).TheBands.map NArr.data
        = r.TheBands.map (fun a => a.data.map (List.map (reclassifyPixel classes outs)))) ∧
    (∀ (classes : List (ℚ × ℚ)) (outs : List (Option ℚ)) (v : ℚ),
      (∀ ov ∈ outs.filterMap id, ∀ c ∈ classes, ¬(c.1 < ov ∧ ov ≤ c.2)) →
      reclassifyPixel classes outs v = reclassifyFirstMatch classes outs v) := by
  exact ⟨Reclassify_range_bands_eq, reclassifyPixel_eq_firstMatch⟩

/-- C3, witness for the amended theorem: a concrete raster for the fold
characterisation, and concrete overlapping classes (with outputs 300, 400
falling in no class range) for the first-match consequence. -/
theorem reclassify_sequential_overwrite_semantics_witness :
    ((overlapR.Reclassify_range [(0,150), (50,200)] [some 300, some 400] 7).TheBands.map
        NArr.data
      = overlapR.TheBands.map
          (fun a => a.data.map (List.map (reclassifyPixel [(0,150), (50,200)] [some 300, some 400])))) ∧
    reclassifyPixel [(0,150), (50,200)] [some 300, some 400] 100
      = reclassifyFirstMatch [(0,150), (50,200)] [some 300, some 400] 100 := by
  constructor
  · exact reclassify_sequential_overwrite_semantics.1 overlapR
      [(0,150), (50,200)] [some 300, some 400] 7
  · refine reclassify_sequential_overwrite_semantics.2
      [(0,150), (50,200)] [some 300, some 400] 100 ?_
    intro ov hov c hc
    simp only [List.filterMap_cons, id] at hov
    simp only [List.mem_cons, List.not_mem_nil, or_false] at hov hc
    rcases hov with rfl | rfl | h
    · rcases hc with rfl | rfl <;> norm_num
    · rcases hc with rfl | rfl <;> norm_num
    · simp at h

/-- `SpaResample.ExtractByPixels` (lines 1406-1453): copies the metadata
(`CopyPropertiesButNotData`, whose mask copy at line 167 is commented out, so
the fresh output dataset's mask stays `None`), sets the output dimensions to
the inclusive window size, shifts the origin by `StartColumn*PixelWidth` and
`StartRow*PixelHeight`, and takes the numpy basic slice
`[StartRow:EndRow+1, StartColumn:EndColumn+1]` of every band.  A basic slice
is a **view**: the output band keeps the source band's buffer identity.
There is no bounds check anywhere; numpy clamps an overlong slice.
(Indices are naturals here: the claims only quantify over pixel-index
windows with `Start ≤ End`.) -/
def SpaResample.ExtractByPixels (r : SpaDatasetRaster)
    (StartColumn StartRow EndColumn EndRow : Nat) : SpaDatasetRaster :=
  { r with
    TheMask := none
    HeightInPixels := EndRow - StartRow + 1
    WidthInPixels := EndColumn - StartColumn + 1
    XMin := r.XMin + (StartColumn : ℚ) * r.PixelWidth
    YMax := r.YMax + (StartRow : ℚ) * r.PixelHeight
    TheBands := (List.range r.NumBands).map (fun i =>
      let a := r.TheBands.getD i ⟨0, []⟩
      (⟨a.id, ((a.data.take (EndRow + 1)).drop StartRow).map
        (fun row => (row.take (EndColumn + 1)).drop StartColumn)⟩ : NArr)) }

/-- A 2×2 raster used for the pixel-window claims. -/
def smallR : SpaDatasetRaster :=
  { WidthInPixels := 2
    HeightInPixels := 2
    NumBands := 1
    NoDataValue := none
    TheMask := none
    TheBands := [⟨3, [[1,2],[3,4]]⟩]
    GDALDataType := .GDT_Int16
    XMin := 0
    YMax := 0
    PixelWidth := 1
    PixelHeight := -1 }

/-- C5, counterexample.  For the 2×2 raster above and the window
`(c0,r0,c1,r1) = (0,0,5,0)` (`c1 = 5 ≥ width = 2`), the claim says
`ExtractByPixels` fails with `IndexOutOfRange`.  The code has no bounds check
at all: it returns a raster normally, with the declared width `6` but a band
that numpy silently clamped to the 2 available columns. -/
theorem extractByPixels_overflow_no_error :
    (SpaResample.ExtractByPixels smallR 0 0 5 0).WidthInPixels = 6 ∧
    (SpaResample.ExtractByPixels smallR 0 0 5 0).TheBands.map NArr.data
      = [[[1, 2]]] ∧
    5 ≥ smallR.WidthInPixels := by
  refine ⟨rfl, ?_, by norm_num [smallR]⟩
  simp [SpaResample.ExtractByPixels, smallR, List.range_succ]

/-- C5, amended.  For every raster whose band arrays match its declared
dimensions and every window with `StartColumn ≤ EndColumn`,
`StartRow ≤ EndRow`:
the output's declared shape is `(EndRow-StartRow+1, EndColumn-StartColumn+1)`
and its origin shifts by `(StartColumn*pixelWidth, StartRow*pixelHeight)`
exactly as claimed; but no `IndexOutOfRange` failure exists: the band arrays
always have the clamped shape
`(min (EndRow+1) height - StartRow, min (EndColumn+1) width - StartColumn)`,
which agrees with the declared shape exactly when the window lies inside the
source (and is silently smaller when the window overflows). -/
theorem extractByPixels_shape_origin_clamp
    (r : SpaDatasetRaster) (StartColumn StartRow EndColumn EndRow : Nat)
    (hw : ∀ a ∈ r.TheBands, a.data.length = r.HeightInPixels ∧
      ∀ row ∈ a.data, row.length = r.WidthInPixels)
    (hnb : r.NumBands = r.TheBands.length)
    (hsr : StartRow ≤ EndRow) (hsc : StartColumn ≤ EndColumn) :
    (SpaResample.ExtractByPixels r StartColumn StartRow EndColumn EndRow).WidthInPixels
      = EndColumn - StartColumn + 1 ∧
    (SpaResample.ExtractByPixels r StartColumn StartRow EndColumn EndRow).HeightInPixels
      = EndRow - StartRow + 1 ∧
    (SpaResample.ExtractByPixels r StartColumn StartRow EndColumn EndRow).XMin
      = r.XMin + (StartColumn : ℚ) * r.PixelWidth ∧
    (SpaResample.ExtractByPixels r StartColumn StartRow EndColumn EndRow).YMax
      = r.YMax + (StartRow : ℚ) * r.PixelHeight ∧
    (∀ a ∈ (SpaResample.ExtractByPixels r StartColumn StartRow EndColumn EndRow).TheBands,
      a.data.length = min (EndRow + 1) r.HeightInPixels - StartRow ∧
      ∀ row ∈ a.data, row.length = min (EndColumn + 1) r.WidthInPixels - StartColumn) ∧
    (EndRow < r.HeightInPixels → EndColumn < r.WidthInPixels →
      ∀ a ∈ (SpaResample.ExtractByPixels r StartColumn StartRow EndColumn EndRow).TheBands,
        a.data.length = EndRow - StartRow + 1 ∧
        ∀ row ∈ a.data, row.length = EndColumn - StartColumn + 1) := by
  have hdims : ∀ a ∈ (SpaResample.ExtractByPixels r StartColumn StartRow EndColumn EndRow).TheBands,
      a.data.length = min (EndRow + 1) r.HeightInPixels - StartRow ∧
      ∀ row ∈ a.data, row.length = min (EndColumn + 1) r.WidthInPixels - StartColumn := by
    intro a ha
    simp only [SpaResample.ExtractByPixels, List.mem_map, List.mem_range] at ha
    obtain ⟨i, hi, rfl⟩ := ha
    have hmem : r.TheBands.getD i ⟨0, []⟩ ∈ r.TheBands := by
      have hlen : i < r.TheBands.length := hnb ▸ hi
      rw [List.getD_eq_getElem r.TheBands ⟨0, []⟩ hlen]
      exact List.getElem_mem hlen
    have hband := hw _ hmem
    constructor
    · simp only [List.length_map, List.length_drop, List.length_take, hband.1]
    · intro row hrow
      simp only [List.mem_map] at hrow
      obtain ⟨row0, hrow0, rfl⟩ := hrow
      have : row0 ∈ (r.TheBands.getD i ⟨0, []⟩).data :=
        List.mem_of_mem_take (List.mem_of_mem_drop hrow0)
      simp only [List.length_drop, List.length_take, hband.2 row0 this]
  refine ⟨rfl, rfl, rfl, rfl, hdims, ?_⟩
  intro hrow hcol a ha
  have h := hdims a ha
  constructor
  · rw [h.1]
    omega
  · intro row hr
    rw [h.2 row hr]
    omega

/-- C5, witness: the amended theorem at the 2×2 raster with the in-bounds
window `(0,1,1,1)` (second row). -/
theorem extractByPixels_shape_origin_clamp_witness :
    (SpaResample.ExtractByPixels smallR 0 1 1 1).WidthInPixels = 1 - 0 + 1 ∧
    (SpaResample.ExtractByPixels smallR 0 1 1 1).HeightInPixels = 1 - 1 + 1 ∧
    (SpaResample.ExtractByPixels smallR 0 1 1 1).XMin
      = smallR.XMin + (0 : ℚ) * smallR.PixelWidth ∧
    (SpaResample.ExtractByPixels smallR 0 1 1 1).YMax
      = smallR.YMax + (1 : ℚ) * smallR.PixelHeight ∧
    (∀ a ∈ (SpaResample.ExtractByPixels smallR 0 1 1 1).TheBands,
      a.data.length = min (1 + 1) smallR.HeightInPixels - 1 ∧
      ∀ row ∈ a.data, row.length = min (1 + 1) smallR.WidthInPixels - 0) ∧
    (1 < smallR.HeightInPixels → 1 < smallR.WidthInPixels →
      ∀ a ∈ (SpaResample.ExtractByPixels smallR 0 1 1 1).TheBands,
        a.data.length = 1 - 1 + 1 ∧ ∀ row ∈ a.data, row.length = 1 - 0 + 1) :=
  extractByPixels_shape_origin_clamp smallR 0 1 1 1
    (by intro a ha
        simp only [smallR, List.mem_singleton] at ha
        subst ha
        refine ⟨rfl, ?_⟩
        intro row hrow
        simp only [List.mem_cons, List.not_mem_nil, or_false] at hrow
        rcases hrow with rfl | rfl <;> rfl)
    (by simp [smallR])
    (by decide)
    (by decide)

/-- The in-place zero threshold of `SpaResample.Scale` (lines 1380-1381):
`InputBand[InputBand < 0.00000001] = 0`.  The comparison is on the **signed**
pixel value, not on its magnitude. -/
def zeroSmall (v : ℚ) : ℚ := if v < 1 / 100000000 then 0 else v

/-- `int(round(n * zoom))`, the output extent of `scipy.ndimage.zoom`. -/
def roundSize (n : Nat) (z : ℚ) : Nat := (⌊(n : ℚ) * z + 1/2⌋).toNat

/-- Modelled from the spec: the resampling filter used by `Scale` is the
external collaborator `scipy.ndimage.zoom` (not part of this repository; the
spec §4.6 treats it as the resampling filter whose output dimensions define
the new raster shape).  Only its documented contract is modelled here: the
output has `round(n*zoom)` rows and columns, and every output pixel is
sampled from the input grid; the spline weighting itself plays no role in
any claim below. -/
def ndimage_zoom (g : Grid ℚ) (z : ℚ) : Grid ℚ :=
  (List.range (roundSize g.length z)).map (fun (i : Nat) =>
    (List.range (roundSize (g.headD []).length z)).map (fun (j : Nat) =>
      (g.getD (⌊(i : ℚ) / z⌋).toNat []).getD (⌊(j : ℚ) / z⌋).toNat 0))

/-- Modelled from the spec: the nearest-neighbour (`order=1, mode='nearest'`)
zoom applied to the boolean mask (line 1398). -/
def ndimage_zoom_bool (g : Grid Bool) (z : ℚ) : Grid Bool :=
  (List.range (roundSize g.length z)).map (fun (i : Nat) =>
    (List.range (roundSize (g.headD []).length z)).map (fun (j : Nat) =>
      (g.getD (⌊(i : ℚ) / z⌋).toNat []).getD (⌊(j : ℚ) / z⌋).toNat false))

/-- `SpaResample.Scale` (lines 1347-1404): new pixel sizes are the old ones
divided by `ZoomFactor`; for every band index below `NumBands` the function
**first writes zeros in place** into the input band wherever the value is
below `0.00000001` (lines 1380-1381) and then zooms the band; the output
width/height are taken from the zoomed array's dimensions (of the last band
processed; they keep the copied values when there are no bands); the mask,
if present, is zoomed with the nearest-neighbour filter.  Because the
threshold write mutates the caller's band arrays, the function here returns
the pair (output dataset, input dataset after the call). -/
def SpaResample.Scale (r : SpaDatasetRaster) (ZoomFactor : ℚ) (next : Nat) :
    SpaDatasetRaster × SpaDatasetRaster :=
  let zeroed : Grid ℚ → Grid ℚ := fun g => g.map (List.map zeroSmall)
  let inputAfter := { r with
    TheBands := r.TheBands.enum.map
      (fun p => if p.1 < r.NumBands then (⟨p.2.id, zeroed p.2.data⟩ : NArr) else p.2) }
  let OutputBands := (List.range r.NumBands).map (fun i =>
    (⟨next + i,
      ndimage_zoom (zeroed ((r.TheBands.getD i ⟨0, []⟩).data)) ZoomFactor⟩ : NArr))
  let lastShape : Nat × Nat :=
    if r.NumBands = 0 then (r.HeightInPixels, r.WidthInPixels)
    else
      let lastB := ((OutputBands.getLast?).map NArr.data).getD []
      (lastB.length, (lastB.headD []).length)
  ({ r with
      PixelWidth := r.PixelWidth / ZoomFactor
      PixelHeight := r.PixelHeight / ZoomFactor
      HeightInPixels := lastShape.1
      WidthInPixels := lastShape.2
      TheBands := OutputBands
      TheMask := r.TheMask.map
        (fun m => ⟨next + r.NumBands, ndimage_zoom_bool m.data ZoomFactor⟩) },
   inputAfter)

/-- A 1×1 raster whose single pixel is -5 (a large-magnitude negative
value). -/
def negR : SpaDatasetRaster :=
  { WidthInPixels := 1
    HeightInPixels := 1
    NumBands := 1
    NoDataValue := none
    TheMask := none
    TheBands := [⟨3, [[-5]]⟩]
    GDALDataType := .GDT_Float32
    XMin := 0
    YMax := 0
    PixelWidth := 1
    PixelHeight := -1 }

/-- C7, counterexample.  The claim says exactly the pixels with **magnitude**
below the epsilon are zeroed, and pixels at or above it reach the filter
unchanged.  The pixel -5 has magnitude 5 ≥ 1e-8, yet `Scale` zeroes it: the
comparison `InputBand < 0.00000001` is on the signed value, so every negative
pixel is zeroed, both in the mutated input band and in what the filter
receives. -/
theorem scale_zeroes_negative_pixel :
    negR.TheBands.map NArr.data = [[[-5]]] ∧
    |(-5 : ℚ)| ≥ 1 / 100000000 ∧
    (SpaResample.Scale negR 1 50).2.TheBands.map NArr.data = [[[0]]] ∧
    (SpaResample.Scale negR 1 50).1.TheBands.map NArr.data = [[[0]]] ∧
    (0 : ℚ) ≠ -5 := by
  refine ⟨by norm_num [negR], by norm_num, ?_, ?_, by norm_num⟩
  · simp only [SpaResample.Scale, negR]
    norm_num [List.enum, List.enumFrom, zeroSmall]
  · simp only [SpaResample.Scale, negR]
    norm_num [ndimage_zoom, roundSize, zeroSmall, List.range_succ]

/-- C7, amended.  For every raster, zoom factor and band index `i` below
`NumBands`, the post-call input band `i` keeps its buffer but its contents
are the original contents with exactly the pixels whose **signed** value is
below `1/100000000` replaced by zero (so every sufficiently negative pixel is
zeroed no matter how large its magnitude, and nonnegative pixels at or above
the epsilon pass to the filter unchanged). -/
theorem scale_threshold_is_signed
    (r : SpaDatasetRaster) (ZoomFactor : ℚ) (next : Nat)
    (i : Nat) (a : NArr) (hi : r.TheBands[i]? = some a) (hib : i < r.NumBands) :
    ∃ a', (SpaResample.Scale r ZoomFactor next).2.TheBands[i]? = some a' ∧
      a'.id = a.id ∧
      a'.data = a.data.map (List.map (fun v => if v < 1 / 100000000 then 0 else v)) := by
  refine ⟨⟨a.id, a.data.map (List.map zeroSmall)⟩, ?_, rfl, rfl⟩
  show (r.TheBands.enum.map
    (fun p => if p.1 < r.NumBands then
      (⟨p.2.id, p.2.data.map (List.map zeroSmall)⟩ : NArr) else p.2))[i]? = _
  rw [List.getElem?_map, List.getElem?_enum, hi]
  simp [hib]

/-- C7, witness: the amended theorem at the concrete raster `negR`, band 0. -/
theorem scale_threshold_is_signed_witness :
    ∃ a', (SpaResample.Scale negR 2 50).2.TheBands[0]? = some a' ∧
      a'.id = 3 ∧
      a'.data = [[(-5 : ℚ)]].map (List.map (fun v => if v < 1 / 100000000 then 0 else v)) :=
  scale_threshold_is_signed negR 2 50 0 ⟨3, [[-5]]⟩ (by rfl) (by decide)

/-- Modelled from the spec: the module-level `Crop` (lines 1627-1640 and
1297-1319) delegates all pixel work to the external GDAL collaborator
(`gdal.Translate` with `projWin`), outside this repository; per spec §4.6
the window is snapped to the enclosing pixel edges of the source grid.  The
reload of the cropped in-memory dataset then follows the in-repository load
path (`Load` → `GetBands`, lines 505-533): the nodata value carries over
(with `0` read back as "no nodata", line 513) and the mask is recomputed by
comparing band 1 of the cropped data against it (lines 523-526).
`Bounds` is `(XMin, YMin, XMax, YMax)`. -/
def Crop (r : SpaDatasetRaster) (Bounds : ℚ × ℚ × ℚ × ℚ) (next : Nat) :
    SpaDatasetRaster :=
  let xoff : ℤ := ⌊(Bounds.1 - r.XMin) / r.PixelWidth⌋
  let yoff : ℤ := ⌊(Bounds.2.2.2 - r.YMax) / r.PixelHeight⌋
  let w : Nat := (-⌊(Bounds.1 - Bounds.2.2.1) / r.PixelWidth⌋).toNat
  let h : Nat := (-⌊(Bounds.2.2.2 - Bounds.2.1) / r.PixelHeight⌋).toNat
  let slice : Grid ℚ → Grid ℚ := fun g =>
    ((g.drop yoff.toNat).take h).map (fun row => (row.drop xoff.toNat).take w)
  let bands := r.TheBands.enum.map
    (fun p => (⟨next + p.1, slice p.2.data⟩ : NArr))
  let nd := if r.NoDataValue = some 0 then none else r.NoDataValue
  { r with
    WidthInPixels := w
    HeightInPixels := h
    XMin := r.XMin + (xoff : ℚ) * r.PixelWidth
    YMax := r.YMax + (yoff : ℚ) * r.PixelHeight
    TheBands := bands
    NoDataValue := nd
    TheMask := nd.map (fun v =>
      ⟨next + r.TheBands.length,
        ((bands.headD ⟨0, []⟩).data).map (List.map (fun x => decide (x = v)))⟩) }

/-- The module-level `Resample` (lines 1574-1589): `SpaResample().Scale`. -/
def Resample (Input1 : SpaDatasetRaster) (ZoomFactor : ℚ) (next : Nat) :
    SpaDatasetRaster × SpaDatasetRaster :=
  SpaResample.Scale Input1 ZoomFactor next

/-- `ResampleToMatch` (lines 2153-2230).  Captures both resolutions and
bounds, crops both datasets to the intersection rectangle when the bounds
tuples differ (lines 2180-2194; there is **no** emptiness check on the
intersection), then compares the captured horizontal resolutions
(lines 2203-2209): when `Resolution1 < Resolution2` it resamples
**TheDataset2** by `Resolution2/Resolution1` (and symmetrically), and equal
resolutions resample nothing.  (The mask-combination block, lines 2211-2222,
is commented out in the source.)  Returned value: the result pair, followed
by the post-call state of the two argument datasets — `Scale` mutates its
argument's bands in place, which is visible to the caller exactly when the
bounds were equal (no crop), since otherwise `Scale` runs on the cropped
temporaries. -/
def ResampleToMatch (TheDataset1 TheDataset2 : SpaDatasetRaster) (next : Nat) :
    (SpaDatasetRaster × SpaDatasetRaster) × (SpaDatasetRaster × SpaDatasetRaster) :=
  let Resolution1 := TheDataset1.GetResolution
  let TheBounds1 := TheDataset1.GetBounds
  let Resolution2 := TheDataset2.GetResolution
  let TheBounds2 := TheDataset2.GetBounds
  let XMin := max TheBounds1.1 TheBounds2.1
  let YMin := max TheBounds1.2.1 TheBounds2.2.1
  let XMax := min TheBounds1.2.2.1 TheBounds2.2.2.1
  let YMax := min TheBounds1.2.2.2 TheBounds2.2.2.2
  let cropped : SpaDatasetRaster × SpaDatasetRaster :=
    if TheBounds1 ≠ TheBounds2 then
      (Crop TheDataset1 (XMin, YMin, XMax, YMax) next,
       Crop TheDataset2 (XMin, YMin, XMax, YMax) next)
    else (TheDataset1, TheDataset2)
  if Resolution1.1 < Resolution2.1 then
    let s := Resample cropped.2 (Resolution2.1 / Resolution1.1) next
    ((cropped.1, s.1),
     (TheDataset1, if TheBounds1 ≠ TheBounds2 then TheDataset2 else s.2))
  else if Resolution2.1 < Resolution1.1 then
    let s := Resample cropped.1 (Resolution1.1 / Resolution2.1) next
    ((s.1, cropped.2),
     ((if TheBounds1 ≠ TheBounds2 then TheDataset1 else s.2), TheDataset2))
  else
    (cropped, (TheDataset1, TheDataset2))

/-- A 2×2 fine raster (pixel width 1) covering x ∈ [0,2], y ∈ [-2,0]. -/
def fineR : SpaDatasetRaster :=
  { WidthInPixels := 2
    HeightInPixels := 2
    NumBands := 1
    NoDataValue := none
    TheMask := none
    TheBands := [⟨0, [[10,10],[10,10]]⟩]
    GDALDataType := .GDT_Float32
    XMin := 0
    YMax := 0
    PixelWidth := 1
    PixelHeight := -1 }

/-- A 1×1 coarse raster (pixel width 2) covering the same extent. -/
def coarseR : SpaDatasetRaster :=
  { WidthInPixels := 1
    HeightInPixels := 1
    NumBands := 1
    NoDataValue := none
    TheMask := none
    TheBands := [⟨1, [[4]]⟩]
    GDALDataType := .GDT_Float32
    XMin := 0
    YMax := 0
    PixelWidth := 2
    PixelHeight := -2 }

/-- C1, failing-input evaluation.  The two rasters share their bounds, so no
crop happens; the pixel widths are 1 (fine) and 2 (coarse).  The claim (and
the function's own docstring, "the pixel dimensions will be the lower
resolution of the two") says the coarser raster is left unchanged and the
finer is resampled so both end at pixel width 2.  The code does the
opposite: `Resolution1 < Resolution2` triggers
`Resample(TheDataset2, Resolution2/Resolution1)`, i.e. the **coarser**
raster is zoomed by 2, both outputs end at the **finer** pixel width 1, the
coarse raster's grid is upsampled from 1×1 to 2×2 (new interpolated detail),
and it is the finer raster that comes back unchanged. -/
theorem ndimage_zoom_length (g : Grid ℚ) (z : ℚ) :
    (ndimage_zoom g z).length = roundSize g.length z ∧
    ∀ row ∈ ndimage_zoom g z, row.length = roundSize (g.headD []).length z := by
  constructor
  · simp only [ndimage_zoom, List.length_map, List.length_range]
  · intro row h
    simp only [ndimage_zoom, List.mem_map] at h
    obtain ⟨i, _, rfl⟩ := h
    simp only [List.length_map, List.length_range]

theorem ndimage_zoom_headD_length (g : Grid ℚ) (z : ℚ)
    (h : roundSize g.length z ≠ 0) :
    ((ndimage_zoom g z).headD []).length = roundSize (g.headD []).length z := by
  cases hz : ndimage_zoom g z with
  | nil =>
    have := (ndimage_zoom_length g z).1
    rw [hz] at this
    exact absurd this.symm h
  | cons row rest =>
    have hrow : row ∈ ndimage_zoom g z := by
      rw [hz]; exact List.mem_cons_self row rest
    have := (ndimage_zoom_length g z).2 row hrow
    simpa using this

theorem resampleToMatch_goes_to_finer_resolution :
    fineR.PixelWidth = 1 ∧ coarseR.PixelWidth = 2 ∧
    fineR.GetBounds = coarseR.GetBounds ∧
    (ResampleToMatch fineR coarseR 10).1.1.PixelWidth = 1 ∧
    (ResampleToMatch fineR coarseR 10).1.2.PixelWidth = 1 ∧
    (ResampleToMatch fineR coarseR 10).1.2.WidthInPixels = 2 ∧
    (ResampleToMatch fineR coarseR 10).1.1 = fineR := by
  have hb : fineR.GetBounds = coarseR.GetBounds := by
    norm_num [fineR, coarseR, SpaDatasetRaster.GetBounds,
      SpaDatasetRaster.GetResolution]
  have hnb : ¬(fineR.GetBounds ≠ coarseR.GetBounds) := by simp [hb]
  have hres : fineR.GetResolution.1 < coarseR.GetResolution.1 := by
    norm_num [fineR, coarseR, SpaDatasetRaster.GetResolution]
  have hr : ResampleToMatch fineR coarseR 10 =
      ((fineR, (SpaResample.Scale coarseR
          (coarseR.GetResolution.1 / fineR.GetResolution.1) 10).1),
       (fineR, (SpaResample.Scale coarseR
          (coarseR.GetResolution.1 / fineR.GetResolution.1) 10).2)) := by
    simp only [ResampleToMatch, Resample, if_neg hnb, if_pos hres]
  have hzoom : coarseR.GetResolution.1 / fineR.GetResolution.1 = 2 := by
    norm_num [fineR, coarseR, SpaDatasetRaster.GetResolution]
  refine ⟨rfl, rfl, hb, ?_, ?_, ?_, ?_⟩
  · rw [hr]
    rfl
  · rw [hr, hzoom]
    show coarseR.PixelWidth / 2 = 1
    norm_num [coarseR]
  · rw [hr, hzoom]
    have h1 : roundSize (1 : Nat) 2 = 2 := by
      have : ((1 : Nat) : ℚ) * 2 + 1/2 = 5/2 := by norm_num
      rw [roundSize, this, show ⌊(5:ℚ)/2⌋ = 2 by norm_num]
      rfl
    show ((((List.range coarseR.NumBands).map (fun i =>
      (⟨10 + i, ndimage_zoom
        (((coarseR.TheBands.getD i ⟨0, []⟩).data).map (List.map zeroSmall))
        2⟩ : NArr))).getLast?.map NArr.data).getD [] |>.headD []).length = 2
    show ((ndimage_zoom ([[(4:ℚ)]].map (List.map zeroSmall)) 2).headD []).length = 2
    rw [ndimage_zoom_headD_length]
    · simpa using h1
    · simpa using h1.symm ▸ (by simp [h1] : roundSize ([[(4:ℚ)]].map (List.map zeroSmall)).length 2 ≠ 0)
  · rw [hr]

theorem roundSize_zero (z : ℚ) : roundSize 0 z = 0 := by
  unfold roundSize
  rw [show ((0 : Nat) : ℚ) * z + 1/2 = 1/2 by push_cast; ring]
  rw [show ⌊(1 : ℚ)/2⌋ = 0 by norm_num]
  rfl

theorem crop_width_zero (r : SpaDatasetRaster) (b : ℚ × ℚ × ℚ × ℚ) (next : Nat)
    (hpw : 0 < r.PixelWidth) (hx : b.2.2.1 ≤ b.1) :
    (Crop r b next).WidthInPixels = 0 ∧
    ∀ a ∈ (Crop r b next).TheBands, ∀ row ∈ a.data, row.length = 0 := by
  have hq : 0 ≤ (b.1 - b.2.2.1) / r.PixelWidth :=
    div_nonneg (by linarith) hpw.le
  have hfl : 0 ≤ ⌊(b.1 - b.2.2.1) / r.PixelWidth⌋ := Int.floor_nonneg.mpr hq
  have hw : (-⌊(b.1 - b.2.2.1) / r.PixelWidth⌋).toNat = 0 := by omega
  refine ⟨hw, ?_⟩
  intro a ha row hrow
  simp only [Crop, List.mem_map] at ha
  obtain ⟨p, _, rfl⟩ := ha
  simp only [List.mem_map] at hrow
  obtain ⟨row0, _, rfl⟩ := hrow
  simp only [List.length_take, hw]
  omega

theorem crop_height_zero (r : SpaDatasetRaster) (b : ℚ × ℚ × ℚ × ℚ) (next : Nat)
    (hph : r.PixelHeight < 0) (hy : b.2.2.2 ≤ b.2.1) :
    (Crop r b next).HeightInPixels = 0 ∧
    ∀ a ∈ (Crop r b next).TheBands, a.data = [] := by
  have hq : 0 ≤ (b.2.2.2 - b.2.1) / r.PixelHeight :=
    div_nonneg_of_nonpos (by linarith) hph.le
  have hfl : 0 ≤ ⌊(b.2.2.2 - b.2.1) / r.PixelHeight⌋ := Int.floor_nonneg.mpr hq
  have hh : (-⌊(b.2.2.2 - b.2.1) / r.PixelHeight⌋).toNat = 0 := by omega
  refine ⟨hh, ?_⟩
  intro a ha
  simp only [Crop, List.mem_map] at ha
  obtain ⟨p, _, rfl⟩ := ha
  simp only [hh, List.take_zero, List.map_nil]

theorem range_map_getLast (n : Nat) (f : Nat → NArr) (hn : n ≠ 0) :
    ((List.range n).map f).getLast? = some (f (n - 1)) := by
  rw [List.getLast?_eq_getElem?]
  simp only [List.length_map, List.length_range]
  rw [List.getElem?_map, List.getElem?_range (by omega)]
  rfl

theorem zeroed_headD_length (g : Grid ℚ) :
    ((g.map (List.map zeroSmall)).headD []).length = (g.headD []).length := by
  cases g with
  | nil => rfl
  | cons row rest => simp

theorem zeroed_length (g : Grid ℚ) :
    (g.map (List.map zeroSmall)).length = g.length := List.length_map g _

theorem scale_shape (r : SpaDatasetRaster) (z : ℚ) (next : Nat)
    (hn : r.NumBands ≠ 0) :
    (SpaResample.Scale r z next).1.HeightInPixels
      = (ndimage_zoom
          (((r.TheBands.getD (r.NumBands - 1) ⟨0, []⟩).data).map (List.map zeroSmall)) z).length ∧
    (SpaResample.Scale r z next).1.WidthInPixels
      = ((ndimage_zoom
          (((r.TheBands.getD (r.NumBands - 1) ⟨0, []⟩).data).map (List.map zeroSmall)) z).headD []).length := by
  simp only [SpaResample.Scale, if_neg hn,
    range_map_getLast r.NumBands _ hn, Option.map_some, Option.getD_some]
  exact ⟨rfl, rfl⟩

theorem scale_width_zero (r : SpaDatasetRaster) (z : ℚ) (next : Nat)
    (h0 : r.WidthInPixels = 0)
    (hrows : ∀ a ∈ r.TheBands, ∀ row ∈ a.data, row.length = 0) :
    (SpaResample.Scale r z next).1.WidthInPixels = 0 := by
  by_cases hn : r.NumBands = 0
  · simp only [SpaResample.Scale, if_pos hn]
    exact h0
  · rw [(scale_shape r z next hn).2]
    have hhead : (((r.TheBands.getD (r.NumBands - 1) ⟨0, []⟩).data).headD []).length = 0 := by
      by_cases hlt : r.NumBands - 1 < r.TheBands.length
      · have hmem : r.TheBands.getD (r.NumBands - 1) ⟨0, []⟩ ∈ r.TheBands := by
          rw [List.getD_eq_getElem r.TheBands ⟨0, []⟩ hlt]
          exact List.getElem_mem hlt
        have := hrows _ hmem
        cases hg : (r.TheBands.getD (r.NumBands - 1) ⟨0, []⟩).data with
        | nil => rfl
        | cons row rest =>
          simp only [List.headD_cons]
          exact this row (by rw [hg]; exact List.mem_cons_self row rest)
      · rw [List.getD_eq_default r.TheBands ⟨0, []⟩ (by omega)]
        rfl
    cases hz : ndimage_zoom (((r.TheBands.getD (r.NumBands - 1) ⟨0, []⟩).data).map (List.map zeroSmall)) z with
    | nil => rfl
    | cons row rest =>
      have hrow : row ∈ ndimage_zoom (((r.TheBands.getD (r.NumBands - 1) ⟨0, []⟩).data).map (List.map zeroSmall)) z := by
        rw [hz]; exact List.mem_cons_self row rest
      have := (ndimage_zoom_length _ z).2 row hrow
      simp only [List.headD_cons]
      rw [this, zeroed_headD_length, hhead, roundSize_zero]

theorem scale_height_zero (r : SpaDatasetRaster) (z : ℚ) (next : Nat)
    (h0 : r.HeightInPixels = 0)
    (hdata : ∀ a ∈ r.TheBands, a.data = []) :
    (SpaResample.Scale r z next).1.HeightInPixels = 0 := by
  by_cases hn : r.NumBands = 0
  · simp only [SpaResample.Scale, if_pos hn]
    exact h0
  · rw [(scale_shape r z next hn).1]
    have hg : ((r.TheBands.getD (r.NumBands - 1) ⟨0, []⟩).data) = [] := by
      by_cases hlt : r.NumBands - 1 < r.TheBands.length
      · have hmem : r.TheBands.getD (r.NumBands - 1) ⟨0, []⟩ ∈ r.TheBands := by
          rw [List.getD_eq_getElem r.TheBands ⟨0, []⟩ hlt]
          exact List.getElem_mem hlt
        exact hdata _ hmem
      · rw [List.getD_eq_default r.TheBands ⟨0, []⟩ (by omega)]
    rw [hg]
    simp only [List.map_nil]
    rw [(ndimage_zoom_length [] z).1]
    exact roundSize_zero z

/-- C2, amended.  `ResampleToMatch` contains no emptiness check and no
`DisjointExtentError` (no such error exists anywhere in the module): for
every pair of north-up rasters (positive pixel widths, negative pixel
heights, band arrays matching the declared dimensions) whose reference
bounds have an empty intersection, it **returns** a pair of rasters whose
pixel area is empty (zero width or zero height) — the degenerate
intersection rectangle is simply cropped to, under the spec-modelled GDAL
crop collaborator. -/
theorem resampleToMatch_disjoint_returns_empty_pair
    (d1 d2 : SpaDatasetRaster) (next : Nat)
    (hpw1 : 0 < d1.PixelWidth) (hpw2 : 0 < d2.PixelWidth)
    (hph1 : d1.PixelHeight < 0) (hph2 : d2.PixelHeight < 0)
    (hw1 : ∀ a ∈ d1.TheBands, ∀ row ∈ a.data, row.length = d1.WidthInPixels)
    (hh1 : ∀ a ∈ d1.TheBands, a.data.length = d1.HeightInPixels)
    (hw2 : ∀ a ∈ d2.TheBands, ∀ row ∈ a.data, row.length = d2.WidthInPixels)
    (hh2 : ∀ a ∈ d2.TheBands, a.data.length = d2.HeightInPixels)
    (hdis : min d1.GetBounds.2.2.1 d2.GetBounds.2.2.1
              ≤ max d1.GetBounds.1 d2.GetBounds.1
          ∨ min d1.GetBounds.2.2.2 d2.GetBounds.2.2.2
              ≤ max d1.GetBounds.2.1 d2.GetBounds.2.1) :
    ((ResampleToMatch d1 d2 next).1.1.WidthInPixels = 0 ∨
     (ResampleToMatch d1 d2 next).1.1.HeightInPixels = 0) ∧
    ((ResampleToMatch d1 d2 next).1.2.WidthInPixels = 0 ∨
     (ResampleToMatch d1 d2 next).1.2.HeightInPixels = 0) := by
  set bb : ℚ × ℚ × ℚ × ℚ :=
    (max d1.GetBounds.1 d2.GetBounds.1,
     max d1.GetBounds.2.1 d2.GetBounds.2.1,
     min d1.GetBounds.2.2.1 d2.GetBounds.2.2.1,
     min d1.GetBounds.2.2.2 d2.GetBounds.2.2.2) with hbb
  by_cases hbe : d1.GetBounds = d2.GetBounds
  · -- equal bounds: no crop; the declared sizes are already zero
    have hnb : ¬(d1.GetBounds ≠ d2.GetBounds) := by simp [hbe]
    have hsz : (d1.WidthInPixels = 0 ∧ d2.WidthInPixels = 0) ∨
        (d1.HeightInPixels = 0 ∧ d2.HeightInPixels = 0) := by
      rcases hdis with hx | hy
      · left
        rw [hbe, min_self, max_self] at hx
        have hx2 : d2.GetBounds.2.2.1 ≤ d2.GetBounds.1 := hx
        have hx1 : d1.GetBounds.2.2.1 ≤ d1.GetBounds.1 := by rw [hbe]; exact hx
        constructor
        · have : (d1.WidthInPixels : ℚ) * d1.PixelWidth ≤ 0 := by
            have := hx1
            simp only [SpaDatasetRaster.GetBounds, SpaDatasetRaster.GetResolution] at this
            linarith
          by_contra hne
          have hpos : 0 < (d1.WidthInPixels : ℚ) := by
            have : 0 < d1.WidthInPixels := Nat.pos_of_ne_zero hne
            exact_mod_cast this
          nlinarith
        · have : (d2.WidthInPixels : ℚ) * d2.PixelWidth ≤ 0 := by
            have := hx2
            simp only [SpaDatasetRaster.GetBounds, SpaDatasetRaster.GetResolution] at this
            linarith
          by_contra hne
          have hpos : 0 < (d2.WidthInPixels : ℚ) := by
            have : 0 < d2.WidthInPixels := Nat.pos_of_ne_zero hne
            exact_mod_cast this
          nlinarith
      · right
        rw [hbe, min_self, max_self] at hy
        have hy2 : d2.GetBounds.2.2.2 ≤ d2.GetBounds.2.1 := hy
        have hy1 : d1.GetBounds.2.2.2 ≤ d1.GetBounds.2.1 := by rw [hbe]; exact hy
        constructor
        · have : 0 ≤ (d1.HeightInPixels : ℚ) * d1.PixelHeight := by
            have := hy1
            simp only [SpaDatasetRaster.GetBounds, SpaDatasetRaster.GetResolution] at this
            linarith
          by_contra hne
          have hpos : 0 < (d1.HeightInPixels : ℚ) := by
            have : 0 < d1.HeightInPixels := Nat.pos_of_ne_zero hne
            exact_mod_cast this
          nlinarith
        · have : 0 ≤ (d2.HeightInPixels : ℚ) * d2.PixelHeight := by
            have := hy2
            simp only [SpaDatasetRaster.GetBounds, SpaDatasetRaster.GetResolution] at this
            linarith
          by_contra hne
          have hpos : 0 < (d2.HeightInPixels : ℚ) := by
            have : 0 < d2.HeightInPixels := Nat.pos_of_ne_zero hne
            exact_mod_cast this
          nlinarith
    have hz1w : d1.WidthInPixels = 0 → ∀ a ∈ d1.TheBands, ∀ row ∈ a.data, row.length = 0 := by
      intro h a ha row hr; rw [hw1 a ha row hr, h]
    have hz2w : d2.WidthInPixels = 0 → ∀ a ∈ d2.TheBands, ∀ row ∈ a.data, row.length = 0 := by
      intro h a ha row hr; rw [hw2 a ha row hr, h]
    have hz1h : d1.HeightInPixels = 0 → ∀ a ∈ d1.TheBands, a.data = [] := by
      intro h a ha
      have := hh1 a ha
      rw [h] at this
      exact List.length_eq_zero.mp this
    have hz2h : d2.HeightInPixels = 0 → ∀ a ∈ d2.TheBands, a.data = [] := by
      intro h a ha
      have := hh2 a ha
      rw [h] at this
      exact List.length_eq_zero.mp this
    by_cases hlt : d1.GetResolution.1 < d2.GetResolution.1
    · simp only [ResampleToMatch, Resample, if_pos hlt, if_neg hnb]
      rcases hsz with ⟨h1, h2⟩ | ⟨h1, h2⟩
      · exact ⟨Or.inl h1, Or.inl (scale_width_zero d2 _ next h2 (hz2w h2))⟩
      · exact ⟨Or.inr h1, Or.inr (scale_height_zero d2 _ next h2 (hz2h h2))⟩
    · by_cases hgt : d2.GetResolution.1 < d1.GetResolution.1
      · simp only [ResampleToMatch, Resample, if_neg hlt, if_pos hgt, if_neg hnb]
        rcases hsz with ⟨h1, h2⟩ | ⟨h1, h2⟩
        · exact ⟨Or.inl (scale_width_zero d1 _ next h1 (hz1w h1)), Or.inl h2⟩
        · exact ⟨Or.inr (scale_height_zero d1 _ next h1 (hz1h h1)), Or.inr h2⟩
      · simp only [ResampleToMatch, Resample, if_neg hlt, if_neg hgt, if_neg hnb]
        rcases hsz with ⟨h1, h2⟩ | ⟨h1, h2⟩
        · exact ⟨Or.inl h1, Or.inl h2⟩
        · exact ⟨Or.inr h1, Or.inr h2⟩
  · -- different bounds: the crop windows are degenerate
    have hnb : d1.GetBounds ≠ d2.GetBounds := hbe
    have hcrops : ((Crop d1 bb next).WidthInPixels = 0 ∧
          (∀ a ∈ (Crop d1 bb next).TheBands, ∀ row ∈ a.data, row.length = 0) ∧
          (Crop d2 bb next).WidthInPixels = 0 ∧
          (∀ a ∈ (Crop d2 bb next).TheBands, ∀ row ∈ a.data, row.length = 0)) ∨
        ((Crop d1 bb next).HeightInPixels = 0 ∧
          (∀ a ∈ (Crop d1 bb next).TheBands, a.data = []) ∧
          (Crop d2 bb next).HeightInPixels = 0 ∧
          (∀ a ∈ (Crop d2 bb next).TheBands, a.data = [])) := by
      rcases hdis with hx | hy
      · left
        have hx' : bb.2.2.1 ≤ bb.1 := hx
        obtain ⟨e1, e1b⟩ := crop_width_zero d1 bb next hpw1 hx'
        obtain ⟨e2, e2b⟩ := crop_width_zero d2 bb next hpw2 hx'
        exact ⟨e1, e1b, e2, e2b⟩
      · right
        have hy' : bb.2.2.2 ≤ bb.2.1 := hy
        obtain ⟨e1, e1b⟩ := crop_height_zero d1 bb next hph1 hy'
        obtain ⟨e2, e2b⟩ := crop_height_zero d2 bb next hph2 hy'
        exact ⟨e1, e1b, e2, e2b⟩
    by_cases hlt : d1.GetResolution.1 < d2.GetResolution.1
    · simp only [ResampleToMatch, Resample, if_pos hlt, if_pos hnb]
      rcases hcrops with ⟨h1, _, h2, h2b⟩ | ⟨h1, _, h2, h2b⟩
      · exact ⟨Or.inl h1, Or.inl (scale_width_zero _ _ next h2 h2b)⟩
      · exact ⟨Or.inr h1, Or.inr (scale_height_zero _ _ next h2 h2b)⟩
    · by_cases hgt : d2.GetResolution.1 < d1.GetResolution.1
      · simp only [ResampleToMatch, Resample, if_neg hlt, if_pos hgt, if_pos hnb]
        rcases hcrops with ⟨h1, h1b, h2, _⟩ | ⟨h1, h1b, h2, _⟩
        · exact ⟨Or.inl (scale_width_zero _ _ next h1 h1b), Or.inl h2⟩
        · exact ⟨Or.inr (scale_height_zero _ _ next h1 h1b), Or.inr h2⟩
      · simp only [ResampleToMatch, Resample, if_neg hlt, if_neg hgt, if_pos hnb]
        rcases hcrops with ⟨h1, _, h2, _⟩ | ⟨h1, _, h2, _⟩
        · exact ⟨Or.inl h1, Or.inl h2⟩
        · exact ⟨Or.inr h1, Or.inr h2⟩

/-- A 1×1 raster at origin (0,0): bounds [0,-1,1,0]. -/
def disjointA : SpaDatasetRaster :=
  { WidthInPixels := 1
    HeightInPixels := 1
    NumBands := 1
    NoDataValue := none
    TheMask := none
    TheBands := [⟨0, [[7]]⟩]
    GDALDataType := .GDT_Float32
    XMin := 0
    YMax := 0
    PixelWidth := 1
    PixelHeight := -1 }

/-- A 1×1 raster at origin (10,0): bounds [10,-1,11,0] — disjoint from
`disjointA`. -/
def disjointB : SpaDatasetRaster :=
  { disjointA with XMin := 10, TheBands := [⟨1, [[8]]⟩] }

/-- C2, counterexample.  The two rasters' extents are disjoint
(`XMax_A = 1 ≤ 10 = XMin_B`, so the intersection rectangle is empty).  The
claim says `ResampleToMatch` fails with `DisjointExtentError`.  No such
error exists in the module: the call returns a pair of rasters normally,
each cropped to the degenerate rectangle — zero pixels wide, with a band of
empty rows — i.e. exactly the silently empty result the claim rules out. -/
theorem resampleToMatch_disjoint_no_error :
    disjointA.GetBounds.2.2.1 ≤ disjointB.GetBounds.1 ∧
    (ResampleToMatch disjointA disjointB 20).1.1.WidthInPixels = 0 ∧
    (ResampleToMatch disjointA disjointB 20).1.2.WidthInPixels = 0 ∧
    (ResampleToMatch disjointA disjointB 20).1.1.TheBands.map NArr.data = [[[]]] ∧
    (ResampleToMatch disjointA disjointB 20).1.2.TheBands.map NArr.data = [[[]]] := by
  have hax : disjointA.GetBounds.2.2.1 ≤ disjointB.GetBounds.1 := by
    norm_num [disjointA, disjointB, SpaDatasetRaster.GetBounds,
      SpaDatasetRaster.GetResolution]
  have hnb : disjointA.GetBounds ≠ disjointB.GetBounds := by
    norm_num [disjointA, disjointB, SpaDatasetRaster.GetBounds,
      SpaDatasetRaster.GetResolution]
  have hlt : ¬(disjointA.GetResolution.1 < disjointB.GetResolution.1) := by
    norm_num [disjointA, disjointB, SpaDatasetRaster.GetResolution]
  have hgt : ¬(disjointB.GetResolution.1 < disjointA.GetResolution.1) := by
    norm_num [disjointA, disjointB, SpaDatasetRaster.GetResolution]
  have hr : ResampleToMatch disjointA disjointB 20 =
      ((Crop disjointA
          (max disjointA.GetBounds.1 disjointB.GetBounds.1,
           max disjointA.GetBounds.2.1 disjointB.GetBounds.2.1,
           min disjointA.GetBounds.2.2.1 disjointB.GetBounds.2.2.1,
           min disjointA.GetBounds.2.2.2 disjointB.GetBounds.2.2.2) 20,
        Crop disjointB
          (max disjointA.GetBounds.1 disjointB.GetBounds.1,
           max disjointA.GetBounds.2.1 disjointB.GetBounds.2.1,
           min disjointA.GetBounds.2.2.1 disjointB.GetBounds.2.2.1,
           min disjointA.GetBounds.2.2.2 disjointB.GetBounds.2.2.2) 20),
       (disjointA, disjointB)) := by
    simp only [ResampleToMatch, Resample, if_neg hlt, if_neg hgt, if_pos hnb]
  have hbb : (max disjointA.GetBounds.1 disjointB.GetBounds.1,
      max disjointA.GetBounds.2.1 disjointB.GetBounds.2.1,
      min disjointA.GetBounds.2.2.1 disjointB.GetBounds.2.2.1,
      min disjointA.GetBounds.2.2.2 disjointB.GetBounds.2.2.2)
        = ((10 : ℚ), (-1 : ℚ), (1 : ℚ), (0 : ℚ)) := by
    norm_num [disjointA, disjointB, SpaDatasetRaster.GetBounds,
      SpaDatasetRaster.GetResolution]
  refine ⟨hax, ?_, ?_, ?_, ?_⟩ <;> rw [hr, hbb]
  · show (-⌊((10 : ℚ) - 1) / disjointA.PixelWidth⌋).toNat = 0
    norm_num [disjointA]
  · show (-⌊((10 : ℚ) - 1) / disjointB.PixelWidth⌋).toNat = 0
    norm_num [disjointB, disjointA]
  · norm_num [Crop, disjointA, List.enum, List.enumFrom]
  · norm_num [Crop, disjointB, disjointA, List.enum, List.enumFrom]

/-- C2, witness for the amended theorem at the concrete disjoint pair. -/
theorem resampleToMatch_disjoint_returns_empty_pair_witness :
    ((ResampleToMatch disjointA disjointB 20).1.1.WidthInPixels = 0 ∨
     (ResampleToMatch disjointA disjointB 20).1.1.HeightInPixels = 0) ∧
    ((ResampleToMatch disjointA disjointB 20).1.2.WidthInPixels = 0 ∨
     (ResampleToMatch disjointA disjointB 20).1.2.HeightInPixels = 0) :=
  resampleToMatch_disjoint_returns_empty_pair disjointA disjointB 20
    (by norm_num [disjointA]) (by norm_num [disjointB, disjointA])
    (by norm_num [disjointA]) (by norm_num [disjointB, disjointA])
    (by intro a ha row hrow
        simp only [disjointA, List.mem_singleton] at ha
        subst ha
        simp only [List.mem_singleton] at hrow
        subst hrow
        rfl)
    (by intro a ha
        simp only [disjointA, List.mem_singleton] at ha
        subst ha
        rfl)
    (by intro a ha row hrow
        simp only [disjointB, disjointA, List.mem_singleton] at ha
        subst ha
        simp only [List.mem_singleton] at hrow
        subst hrow
        rfl)
    (by intro a ha
        simp only [disjointB, disjointA, List.mem_singleton] at ha
        subst ha
        rfl)
    (Or.inl (by norm_num [disjointA, disjointB, SpaDatasetRaster.GetBounds,
      SpaDatasetRaster.GetResolution]))

/-- The raster-math opcodes (`SPAMATH_*` constants, lines 1661-1703) that
are representable over exact rationals and accepted by both operand paths of
`Math`.  `DIVIDE`, the rounding family and the transcendental family are
omitted (their float/NaN semantics lie outside the rational model), as are
`NOT` (scalar path only) and `MAX`/`MIN` (raster path only); no claim below
is about those opcodes. -/
inductive SpaMathOp
  | ADD
  | SUBTRACT
  | MULTIPLY
  | EQUAL
  | NOT_EQUAL
  | GREATER
  | LESS
  | GREATER_OR_EQUAL
  | LESS_OR_EQUAL
  | AND
  | OR
deriving DecidableEq

/-- Whether the opcode lands in the boolean-result conversion branch
(lines 944-948 and 987-992): its result array is cast with `astype(int)` and
the dataset's element type is set to `gdal.GDT_Byte`. -/
def SpaMathOp.isBoolean : SpaMathOp → Bool
  | .EQUAL | .NOT_EQUAL | .GREATER | .LESS | .GREATER_OR_EQUAL
  | .LESS_OR_EQUAL | .AND | .OR => true
  | _ => false

/-- Elementwise semantics of one opcode: the numpy binary ufunc on one pixel
pair (lines 928-941 / 958-969); boolean results are written as their
`astype(int)` image (`True` ↦ 1, `False` ↦ 0). -/
def SpaMathOp.apply : SpaMathOp → ℚ → ℚ → ℚ
  | .ADD, a, b => a + b
  | .SUBTRACT, a, b => a - b
  | .MULTIPLY, a, b => a * b
  | .EQUAL, a, b => if a = b then 1 else 0
  | .NOT_EQUAL, a, b => if a = b then 0 else 1
  | .GREATER, a, b => if b < a then 1 else 0
  | .LESS, a, b => if a < b then 1 else 0
  | .GREATER_OR_EQUAL, a, b => if b ≤ a then 1 else 0
  | .LESS_OR_EQUAL, a, b => if a ≤ b then 1 else 0
  | .AND, a, b => if a ≠ 0 ∧ b ≠ 0 then 1 else 0
  | .OR, a, b => if a ≠ 0 ∨ b ≠ 0 then 1 else 0

/-- The second operand of `Math`: a scalar constant or another dataset. -/
inductive MathInput
  | scalar (v : ℚ)
  | raster (r : SpaDatasetRaster)

/-- `SpaDatasetRaster.Math` (lines 896-998) over the opcodes above.  Raster
operand (lines 911-950): the band counts must match (the `raise` at
line 916), the operands are aligned with `ResampleToMatch`, the result
starts as `Input1.Clone()` — inheriting the post-alignment **first**
operand's mask per the `Clone` rule, and nothing of the second operand's —
then the bands are combined pairwise and boolean opcodes set the element
type to `GDT_Byte` (inside the band loop, hence only when at least one band
was processed).  Scalar operand (lines 952-994): the same on `self`
directly, with no alignment and the mask inherited from `self.Clone()`. -/
def bandCountMessage : String :=
  "Sorry, the number of bands in the two rasters must match"

def SpaDatasetRaster.Math (r : SpaDatasetRaster) (Operation : SpaMathOp)
    (Input2 : MathInput) (next : Nat) : Except String SpaDatasetRaster :=
  match Input2 with
  | .raster r2 =>
    if r.NumBands ≠ r2.NumBands then
      .error bandCountMessage
    else
      let q := ResampleToMatch r r2 next
      let Input1 := q.1.1
      let Input2a := q.1.2
      let NewDataset := Input1.Clone next
      let NewBands := Input1.TheBands.enum.map (fun p =>
        (⟨next + Input1.TheBands.length + 1 + p.1,
          List.zipWith (List.zipWith Operation.apply)
            p.2.data ((Input2a.TheBands.getD p.1 ⟨0, []⟩).data)⟩ : NArr))
      .ok { NewDataset with
        TheBands := NewBands
        GDALDataType :=
          if Operation.isBoolean && !Input1.TheBands.isEmpty then .GDT_Byte
          else NewDataset.GDALDataType }
  | .scalar v =>
    let NewDataset := r.Clone next
    let NewBands := r.TheBands.enum.map (fun p =>
      (⟨next + r.TheBands.length + 1 + p.1,
        p.2.data.map (List.map (fun x => Operation.apply x v))⟩ : NArr))
    .ok { NewDataset with
      TheBands := NewBands
      GDALDataType :=
        if Operation.isBoolean && !r.TheBands.isEmpty then .GDT_Byte
        else NewDataset.GDALDataType }

theorem mem_zipWith {α β γ : Type _} (f : α → β → γ) :
    ∀ (l1 : List α) (l2 : List β) (c : γ), c ∈ List.zipWith f l1 l2 →
      ∃ x y, c = f x y
  | [], _, c, h => by simp at h
  | _ :: _, [], c, h => by simp at h
  | a :: l1, b :: l2, c, h => by
    simp only [List.zipWith_cons_cons, List.mem_cons] at h
    rcases h with h | h
    · exact ⟨a, b, h⟩
    · exact mem_zipWith f l1 l2 c h

/-- The six comparison opcodes of C4. -/
def cmpOps : List SpaMathOp :=
  [.EQUAL, .NOT_EQUAL, .GREATER, .LESS, .GREATER_OR_EQUAL, .LESS_OR_EQUAL]

theorem apply_cmp_zero_one (op : SpaMathOp) (hop : op ∈ cmpOps) (a b : ℚ) :
    op.apply a b = 0 ∨ op.apply a b = 1 := by
  simp only [cmpOps, List.mem_cons, List.not_mem_nil, or_false] at hop
  rcases hop with rfl | rfl | rfl | rfl | rfl | rfl <;>
    · simp only [SpaMathOp.apply]
      split
      · simp
      · simp

theorem cmp_isBoolean (op : SpaMathOp) (hop : op ∈ cmpOps) :
    op.isBoolean = true := by
  simp only [cmpOps, List.mem_cons, List.not_mem_nil, or_false] at hop
  rcases hop with rfl | rfl | rfl | rfl | rfl | rfl <;> rfl

theorem crop_bands_length (r : SpaDatasetRaster) (b : ℚ × ℚ × ℚ × ℚ)
    (next : Nat) :
    (Crop r b next).NumBands = r.NumBands ∧
    (Crop r b next).TheBands.length = r.TheBands.length := by
  refine ⟨rfl, ?_⟩
  simp [Crop, List.enum_length]

theorem scale_bands_length (r : SpaDatasetRaster) (z : ℚ) (next : Nat) :
    (SpaResample.Scale r z next).1.NumBands = r.NumBands ∧
    (SpaResample.Scale r z next).1.TheBands.length = r.NumBands := by
  refine ⟨rfl, ?_⟩
  show ((List.range r.NumBands).map _).length = r.NumBands
  simp

theorem resampleToMatch_first_bands_length
    (d1 d2 : SpaDatasetRaster) (next : Nat)
    (hlen : d1.TheBands.length = d1.NumBands) :
    (ResampleToMatch d1 d2 next).1.1.TheBands.length = d1.NumBands := by
  by_cases hnb : d1.GetBounds ≠ d2.GetBounds <;>
    by_cases hlt : d1.GetResolution.1 < d2.GetResolution.1
  · simp only [ResampleToMatch, Resample, if_pos hlt, if_pos hnb]
    rw [(crop_bands_length d1 _ next).2, hlen]
  · by_cases hgt : d2.GetResolution.1 < d1.GetResolution.1
    · simp only [ResampleToMatch, Resample, if_neg hlt, if_pos hgt, if_pos hnb]
      rw [(scale_bands_length _ _ next).2, (crop_bands_length d1 _ next).1]
    · simp only [ResampleToMatch, Resample, if_neg hlt, if_neg hgt, if_pos hnb]
      rw [(crop_bands_length d1 _ next).2, hlen]
  · simp only [ResampleToMatch, Resample, if_pos hlt, if_neg hnb]
    exact hlen
  · by_cases hgt : d2.GetResolution.1 < d1.GetResolution.1
    · simp only [ResampleToMatch, Resample, if_neg hlt, if_pos hgt, if_neg hnb]
      rw [(scale_bands_length _ _ next).2]
    · simp only [ResampleToMatch, Resample, if_neg hlt, if_neg hgt, if_neg hnb]
      exact hlen

/-- C4 (confirmed).  For every raster with at least one band (and band list
matching its declared band count), every comparison opcode and **either**
operand kind, whenever `Math` returns a result: every pixel of every output
band is 0 or 1, and the output element type is `GDT_Byte` — the narrowest
unsigned integer type — regardless of the input element types. -/
theorem math_comparison_zero_one_byte
    (r : SpaDatasetRaster) (Operation : SpaMathOp) (Input2 : MathInput)
    (next : Nat) (out : SpaDatasetRaster)
    (hcmp : Operation ∈ cmpOps)
    (hL : r.TheBands.length = r.NumBands)
    (hNE : r.TheBands ≠ [])
    (hok : r.Math Operation Input2 next = .ok out) :
    (∀ a ∈ out.TheBands, ∀ row ∈ a.data, ∀ v ∈ row, v = 0 ∨ v = 1) ∧
    out.GDALDataType = .GDT_Byte := by
  cases Input2 with
  | scalar v =>
    simp only [SpaDatasetRaster.Math, Except.ok.injEq] at hok
    subst hok
    have hie : r.TheBands.isEmpty = false := by
      cases hbl : r.TheBands with
      | nil => exact absurd hbl hNE
      | cons a l => rfl
    constructor
    · intro a ha row hrow w hw
      simp only [List.mem_map] at ha
      obtain ⟨p, _, rfl⟩ := ha
      simp only [List.mem_map] at hrow
      obtain ⟨row0, _, rfl⟩ := hrow
      simp only [List.mem_map] at hw
      obtain ⟨x, _, rfl⟩ := hw
      exact apply_cmp_zero_one Operation hcmp x v
    · show (if Operation.isBoolean && !r.TheBands.isEmpty then GDALType.GDT_Byte
        else _) = GDALType.GDT_Byte
      rw [cmp_isBoolean Operation hcmp, hie]
      rfl
  | raster r2 =>
    simp only [SpaDatasetRaster.Math] at hok
    by_cases hbc : r.NumBands ≠ r2.NumBands
    · rw [if_pos hbc] at hok
      exact absurd hok (by simp)
    · rw [if_neg hbc] at hok
      simp only [Except.ok.injEq] at hok
      subst hok
      have hn0 : r.NumBands ≠ 0 := by
        intro h
        rw [h] at hL
        exact hNE (List.length_eq_zero.mp hL)
      have hlen1 : (ResampleToMatch r r2 next).1.1.TheBands.length = r.NumBands :=
        resampleToMatch_first_bands_length r r2 next hL
      have hie : (ResampleToMatch r r2 next).1.1.TheBands.isEmpty = false := by
        cases hbl : (ResampleToMatch r r2 next).1.1.TheBands with
        | nil =>
          rw [hbl] at hlen1
          exact absurd hlen1.symm hn0
        | cons a l => rfl
      constructor
      · intro a ha row hrow w hw
        simp only [List.mem_map] at ha
        obtain ⟨p, _, rfl⟩ := ha
        obtain ⟨r1row, r2row, rfl⟩ := mem_zipWith _ _ _ row hrow
        obtain ⟨x, y, rfl⟩ := mem_zipWith _ _ _ w hw
        exact apply_cmp_zero_one Operation hcmp x y
      · show (if Operation.isBoolean
            && !(ResampleToMatch r r2 next).1.1.TheBands.isEmpty
            then GDALType.GDT_Byte else _) = GDALType.GDT_Byte
        rw [cmp_isBoolean Operation hcmp, hie]
        rfl

/-- The concrete output of `smallR.Math LESS 3`: pixels `[[1,2],[3,4]]`
compared against the scalar 3 give `[[1,1],[0,0]]`, typed `GDT_Byte`. -/
def lessOut : SpaDatasetRaster :=
  { smallR with
    TheBands := [⟨42, [[1,1],[0,0]]⟩]
    TheMask := none
    GDALDataType := .GDT_Byte }

/-- C4, witness: the theorem applied at `smallR`, opcode `LESS`, scalar
operand 3. -/
theorem math_comparison_zero_one_byte_witness :
    (∀ a ∈ lessOut.TheBands, ∀ row ∈ a.data, ∀ v ∈ row, v = 0 ∨ v = 1) ∧
    lessOut.GDALDataType = .GDT_Byte :=
  math_comparison_zero_one_byte smallR .LESS (.scalar 3) 40 lessOut
    (by simp [cmpOps])
    (by rfl)
    (by simp [smallR])
    (by simp only [SpaDatasetRaster.Math, SpaDatasetRaster.Clone, smallR,
          lessOut, List.enum, List.enumFrom, List.map_cons, List.map_nil,
          SpaMathOp.apply, Except.ok.injEq]
        norm_num [SpaMathOp.isBoolean])

theorem clone_mask_data (r : SpaDatasetRaster) (next : Nat) :
    (r.Clone next).TheMask.map BArr.data
      = match r.NoDataValue, r.TheMask with
        | some _, some m => some m.data
        | _, _ => none := by
  cases h1 : r.NoDataValue <;> cases h2 : r.TheMask <;>
    simp [SpaDatasetRaster.Clone, h1, h2]

theorem resampleToMatch_first_mask_independent
    (d1 d2 : SpaDatasetRaster) (m2 : Option BArr) (next : Nat) :
    (ResampleToMatch d1 { d2 with TheMask := m2 } next).1.1
      = (ResampleToMatch d1 d2 next).1.1 := by
  have hb : ({ d2 with TheMask := m2 } : SpaDatasetRaster).GetBounds
      = d2.GetBounds := rfl
  have hres : ({ d2 with TheMask := m2 } : SpaDatasetRaster).GetResolution
      = d2.GetResolution := rfl
  simp only [ResampleToMatch, Resample, hb, hres]
  split_ifs <;> rfl

/-- Projection used to state mask claims about a fallible `Math` call. -/
def exceptMaskData : Except String SpaDatasetRaster → Option (Option (Grid Bool))
  | .ok out => some (out.TheMask.map BArr.data)
  | .error _ => none

/-- C10, amended.  For every raster-raster `Math` call that returns, the
output mask is exactly the `Clone`-projected mask of the **post-alignment
first operand** — equal to that operand's mask when its `NoDataValue` is
set, and `None` when it is not — and the second operand's mask never
influences the output mask (replacing it by anything yields the same output
mask): no OR-combination of the two masks ever happens. -/
theorem math_mask_first_operand_only
    (r1 r2 : SpaDatasetRaster) (Operation : SpaMathOp) (next : Nat)
    (out : SpaDatasetRaster)
    (hok : r1.Math Operation (.raster r2) next = .ok out) :
    (out.TheMask.map BArr.data
      = match (ResampleToMatch r1 r2 next).1.1.NoDataValue,
              (ResampleToMatch r1 r2 next).1.1.TheMask with
        | some _, some m => some m.data
        | _, _ => none) ∧
    ∀ m2 : Option BArr, ∀ out2 : SpaDatasetRaster,
      r1.Math Operation (.raster { r2 with TheMask := m2 }) next = .ok out2 →
      out2.TheMask = out.TheMask := by
  simp only [SpaDatasetRaster.Math] at hok
  by_cases hbc : r1.NumBands ≠ r2.NumBands
  · rw [if_pos hbc] at hok
    exact absurd hok (by simp)
  · rw [if_neg hbc] at hok
    simp only [Except.ok.injEq] at hok
    subst hok
    constructor
    · show ((ResampleToMatch r1 r2 next).1.1.Clone next).TheMask.map BArr.data = _
      exact clone_mask_data _ next
    · intro m2 out2 hok2
      simp only [SpaDatasetRaster.Math] at hok2
      have hbc2 : ¬(r1.NumBands ≠ ({ r2 with TheMask := m2 } : SpaDatasetRaster).NumBands) := hbc
      rw [if_neg hbc2] at hok2
      simp only [Except.ok.injEq] at hok2
      subst hok2
      show ((ResampleToMatch r1 { r2 with TheMask := m2 } next).1.1.Clone next).TheMask
        = ((ResampleToMatch r1 r2 next).1.1.Clone next).TheMask
      rw [resampleToMatch_first_mask_independent]

/-- A 1×1 raster with a populated mask but no nodata sentinel (first
operand). -/
def maskX : SpaDatasetRaster :=
  { WidthInPixels := 1
    HeightInPixels := 1
    NumBands := 1
    NoDataValue := none
    TheMask := some ⟨4, [[true]]⟩
    TheBands := [⟨0, [[1]]⟩]
    GDALDataType := .GDT_Float32
    XMin := 0
    YMax := 0
    PixelWidth := 1
    PixelHeight := -1 }

/-- A second operand on the same grid, with its own mask and nodata. -/
def maskY : SpaDatasetRaster :=
  { maskX with
    TheBands := [⟨1, [[2]]⟩]
    TheMask := some ⟨6, [[false]]⟩
    NoDataValue := some 9 }

theorem rtm_maskXY_tie :
    ResampleToMatch maskX maskY 30 = ((maskX, maskY), (maskX, maskY)) := by
  have hnb : ¬(maskX.GetBounds ≠ maskY.GetBounds) := by
    simp [maskX, maskY, SpaDatasetRaster.GetBounds, SpaDatasetRaster.GetResolution]
  have hlt : ¬(maskX.GetResolution.1 < maskY.GetResolution.1) := by
    norm_num [maskX, maskY, SpaDatasetRaster.GetResolution]
  have hgt : ¬(maskY.GetResolution.1 < maskX.GetResolution.1) := by
    norm_num [maskX, maskY, SpaDatasetRaster.GetResolution]
  simp only [ResampleToMatch, Resample, if_neg hnb, if_neg hlt, if_neg hgt]

/-- C10, counterexample.  The aligned pair `maskX`, `maskY` goes through
`Math` untouched by the alignment step, so the post-alignment first operand
is `maskX` itself, whose mask is populated.  Yet the output's mask is `None`
(`Clone` drops it because `maskX.NoDataValue` is `None`): the output mask is
**not** equal to the post-alignment mask of the first operand, as the claim
states. -/
theorem math_mask_not_first_operand_mask :
    maskX.TheMask ≠ none ∧
    (ResampleToMatch maskX maskY 30).1.1 = maskX ∧
    exceptMaskData (maskX.Math .ADD (.raster maskY) 30) = some none := by
  refine ⟨by simp [maskX], by rw [rtm_maskXY_tie], ?_⟩
  have hbc : ¬(maskX.NumBands ≠ maskY.NumBands) := by simp [maskX, maskY]
  simp only [SpaDatasetRaster.Math, if_neg hbc, rtm_maskXY_tie, exceptMaskData]
  simp [SpaDatasetRaster.Clone, maskX]

/-- The concrete output of `maskX.Math ADD maskY`. -/
def addOut : SpaDatasetRaster :=
  { maskX with
    TheBands := [⟨32, [[3]]⟩]
    TheMask := none }

/-- C10, witness: the amended theorem at the concrete pair. -/
theorem math_mask_first_operand_only_witness :
    (addOut.TheMask.map BArr.data
      = match (ResampleToMatch maskX maskY 30).1.1.NoDataValue,
              (ResampleToMatch maskX maskY 30).1.1.TheMask with
        | some _, some m => some m.data
        | _, _ => none) ∧
    ∀ m2 : Option BArr, ∀ out2 : SpaDatasetRaster,
      maskX.Math .ADD (.raster { maskY with TheMask := m2 }) 30 = .ok out2 →
      out2.TheMask = addOut.TheMask :=
  math_mask_first_operand_only maskX maskY .ADD 30 addOut
    (by have hbc : ¬(maskX.NumBands ≠ maskY.NumBands) := by simp [maskX, maskY]
        simp only [SpaDatasetRaster.Math, if_neg hbc, rtm_maskXY_tie]
        simp only [SpaDatasetRaster.Clone, maskX, maskY, addOut, List.enum,
          List.enumFrom, List.map_cons, List.map_nil, SpaMathOp.apply,
          Except.ok.injEq]
        norm_num [SpaMathOp.isBoolean, SpaMathOp.apply])

theorem snd_mem_of_mem_enum {α : Type _} {p : Nat × α} {l : List α}
    (h : p ∈ l.enum) : p.2 ∈ l := by
  have h1 := List.mem_enum_iff_getElem?.mp h
  obtain ⟨hlt, heq⟩ := List.getElem?_eq_some.mp h1
  exact heq ▸ List.getElem_mem hlt

theorem range_map_getD {α β : Type _} (d : α) (g : α → β) :
    ∀ l : List α, (List.range l.length).map (fun i => g (l.getD i d)) = l.map g
  | [] => rfl
  | a :: l => by
    rw [List.length_cons, List.range_succ_eq_map, List.map_cons, List.map_map]
    have : ((fun i => g ((a :: l).getD i d)) ∘ Nat.succ) = fun i => g (l.getD i d) := by
      funext i
      rfl
    rw [this, range_map_getD d g l]
    rfl

/-- C8, counterexample.  `Scale` writes into its input: after
`Scale negR 1`, the input raster's band buffer (identity 3) holds `[[0]]`
where it held `[[-5]]` before the call — the input's band data is not left
unchanged.  And `ExtractByPixels` returns bands that are numpy views: the
output band carries the same buffer identity as the input band, i.e. they
share mutable storage. -/
theorem transforms_share_and_mutate_storage :
    ((SpaResample.Scale negR 1 60).2.TheBands.map NArr.id
        = negR.TheBands.map NArr.id ∧
     (SpaResample.Scale negR 1 60).2.TheBands.map NArr.data = [[[0]]] ∧
     negR.TheBands.map NArr.data = [[[-5]]] ∧ ([[[(0:ℚ)]]] : List (Grid ℚ)) ≠ [[[-5]]]) ∧
    (SpaResample.ExtractByPixels smallR 0 0 1 1).TheBands.map NArr.id
      = smallR.TheBands.map NArr.id := by
  refine ⟨⟨?_, ?_, by norm_num [negR], by norm_num⟩, ?_⟩
  · simp [SpaResample.Scale, negR, List.enum, List.enumFrom]
  · simp only [SpaResample.Scale, negR]
    norm_num [List.enum, List.enumFrom, zeroSmall]
  · simp [SpaResample.ExtractByPixels, smallR, List.range_succ]

/-- C8, amended.  The storage discipline actually implemented: (1) `Math`
with a scalar operand always returns a dataset whose band and mask buffers
are freshly allocated (identities at or above the supply), sharing nothing
with any pre-existing array; (2) `Scale` keeps the input's band buffers
(identities unchanged) but rewrites their contents in place — the input
comes back unchanged only when no pixel lies below the `1e-8` threshold;
(3) `ExtractByPixels` returns bands sharing the input bands' buffers
(views); (4) `ResampleToMatch` on two already-aligned rasters (equal bounds
and equal horizontal resolution) returns the two input datasets themselves,
not fresh copies. -/
theorem transforms_storage_discipline :
    (∀ (r : SpaDatasetRaster) (op : SpaMathOp) (s : ℚ) (next : Nat),
      ∃ out, r.Math op (.scalar s) next = .ok out ∧
        (∀ a ∈ out.TheBands, next ≤ a.id) ∧
        (∀ m, out.TheMask = some m → next ≤ m.id)) ∧
    (∀ (r : SpaDatasetRaster) (z : ℚ) (next : Nat),
      (SpaResample.Scale r z next).2.TheBands.map NArr.id
        = r.TheBands.map NArr.id ∧
      ((∀ a ∈ r.TheBands, ∀ row ∈ a.data, ∀ v ∈ row, ¬(v < 1 / 100000000)) →
        (SpaResample.Scale r z next).2 = r)) ∧
    (∀ (r : SpaDatasetRaster) (c0 r0 c1 r1 : Nat),
      r.NumBands = r.TheBands.length →
      (SpaResample.ExtractByPixels r c0 r0 c1 r1).TheBands.map NArr.id
        = r.TheBands.map NArr.id) ∧
    (∀ (d1 d2 : SpaDatasetRaster) (next : Nat),
      d1.GetBounds = d2.GetBounds → d1.PixelWidth = d2.PixelWidth →
      ResampleToMatch d1 d2 next = ((d1, d2), (d1, d2))) := by
  refine ⟨?_, ?_, ?_, ?_⟩
  · intro r op s next
    refine ⟨_, rfl, ?_, ?_⟩
    · intro a ha
      simp only [List.mem_map] at ha
      obtain ⟨p, _, rfl⟩ := ha
      show next ≤ next + r.TheBands.length + 1 + p.1
      omega
    · intro m hm
      show next ≤ m.id
      have hcl : (r.Clone next).TheMask = some m := hm
      rcases h1 : r.NoDataValue with _ | nd <;>
        rcases h2 : r.TheMask with _ | mm <;>
        simp only [SpaDatasetRaster.Clone, h1, h2, reduceCtorEq,
          Option.some.injEq] at hcl
      subst hcl
      show next ≤ next + r.TheBands.length
      omega
  · intro r z next
    constructor
    · show ((r.TheBands.enum.map (fun p =>
        if p.1 < r.NumBands then
          (⟨p.2.id, p.2.data.map (List.map zeroSmall)⟩ : NArr)
        else p.2)).map NArr.id) = r.TheBands.map NArr.id
      rw [List.map_map]
      have : (NArr.id ∘ fun p : Nat × NArr =>
          if p.1 < r.NumBands then
            (⟨p.2.id, p.2.data.map (List.map zeroSmall)⟩ : NArr)
          else p.2) = fun p : Nat × NArr => p.2.id := by
        funext p
        by_cases h : p.1 < r.NumBands <;> simp [Function.comp, h]
      rw [this]
      exact enum_map_comp (fun a => a.id) r.TheBands
    · intro hns
      show { r with TheBands := r.TheBands.enum.map (fun p =>
        if p.1 < r.NumBands then
          (⟨p.2.id, p.2.data.map (List.map zeroSmall)⟩ : NArr)
        else p.2) } = r
      have hbands : r.TheBands.enum.map (fun p =>
          if p.1 < r.NumBands then
            (⟨p.2.id, p.2.data.map (List.map zeroSmall)⟩ : NArr)
          else p.2) = r.TheBands := by
        have hcongr : ∀ p ∈ r.TheBands.enum,
            (if p.1 < r.NumBands then
              (⟨p.2.id, p.2.data.map (List.map zeroSmall)⟩ : NArr)
            else p.2) = p.2 := by
          intro p hp
          by_cases h : p.1 < r.NumBands
          · rw [if_pos h]
            have hmem := snd_mem_of_mem_enum hp
            have hdata : p.2.data.map (List.map zeroSmall) = p.2.data := by
              have : ∀ row ∈ p.2.data, row.map zeroSmall = row := by
                intro row hrow
                have : ∀ v ∈ row, zeroSmall v = v := by
                  intro v hv
                  unfold zeroSmall
                  rw [if_neg (hns p.2 hmem row hrow v hv)]
                calc row.map zeroSmall = row.map id := List.map_congr_left this
                  _ = row := List.map_id row
              calc p.2.data.map (List.map zeroSmall)
                  = p.2.data.map id := List.map_congr_left (by
                    intro row hrow
                    exact this row hrow)
                _ = p.2.data := List.map_id _
            rw [hdata]
          · rw [if_neg h]
        calc r.TheBands.enum.map (fun p =>
            if p.1 < r.NumBands then
              (⟨p.2.id, p.2.data.map (List.map zeroSmall)⟩ : NArr)
            else p.2)
            = r.TheBands.enum.map (fun p => p.2) := List.map_congr_left hcongr
          _ = r.TheBands.map (fun a => a) := enum_map_comp (fun a => a) r.TheBands
          _ = r.TheBands := List.map_id r.TheBands
      rw [hbands]
  · intro r c0 r0 c1 r1 hnb
    show ((List.range r.NumBands).map (fun i =>
      (⟨(r.TheBands.getD i ⟨0, []⟩).id, _⟩ : NArr))).map NArr.id
        = r.TheBands.map NArr.id
    rw [List.map_map, hnb]
    exact range_map_getD (⟨0, []⟩ : NArr) (fun a => a.id) r.TheBands
  · intro d1 d2 next hb hpw
    have hnb : ¬(d1.GetBounds ≠ d2.GetBounds) := by simp [hb]
    have hlt : ¬(d1.GetResolution.1 < d2.GetResolution.1) := by
      simp [SpaDatasetRaster.GetResolution, hpw]
    have hgt : ¬(d2.GetResolution.1 < d1.GetResolution.1) := by
      simp [SpaDatasetRaster.GetResolution, hpw]
    simp only [ResampleToMatch, Resample, if_neg hnb, if_neg hlt, if_neg hgt]

/-- C8, witness: the amended theorem at the 2×2 raster (whose pixels all sit
above the threshold), supply values 70-90. -/
theorem transforms_storage_discipline_witness :
    (∃ out, smallR.Math .ADD (.scalar 5) 70 = .ok out ∧
      (∀ a ∈ out.TheBands, 70 ≤ a.id) ∧
      (∀ m, out.TheMask = some m → 70 ≤ m.id)) ∧
    (SpaResample.Scale smallR 1 80).2.TheBands.map NArr.id
      = smallR.TheBands.map NArr.id ∧
    (SpaResample.Scale smallR 1 80).2 = smallR ∧
    (SpaResample.ExtractByPixels smallR 0 0 1 1).TheBands.map NArr.id
      = smallR.TheBands.map NArr.id ∧
    ResampleToMatch smallR smallR 90 = ((smallR, smallR), (smallR, smallR)) := by
  refine ⟨transforms_storage_discipline.1 smallR .ADD 5 70,
    (transforms_storage_discipline.2.1 smallR 1 80).1,
    (transforms_storage_discipline.2.1 smallR 1 80).2 ?_,
    transforms_storage_discipline.2.2.1 smallR 0 0 1 1 rfl,
    transforms_storage_discipline.2.2.2 smallR smallR 90 rfl rfl⟩
  intro a ha row hrow v hv
  simp only [smallR, List.mem_singleton] at ha
  subst ha
  simp only [List.mem_cons, List.not_mem_nil, or_false] at hrow
  rcases hrow with rfl | rfl <;>
    (simp only [List.mem_cons, List.not_mem_nil, or_false] at hv
     rcases hv with rfl | rfl <;> norm_num)
